import Mathlib

/-!
A shallow embedding of `pkg/chart-downloader/chart-downloader.go` of
jenkins-x/chart-downloader.

Go strings are modelled as lists of characters, byte slices as lists of
naturals, the local filesystem as a map from literal path strings to nodes,
and the outside world (HTTP server, failing filesystem calls, the time
budget of the retry loop) as an explicit script handed to each function.
`os.Stat` reports "does not exist" only when nothing is bound at the path,
no ancestor of it is a regular file and the script gives no other answer;
whether `os.Create`, `os.Rename` and `os.Mkdir` succeed is in the script, so
a statement for every script covers every reason for which they fail, and
the concrete runs use scripts that fit their filesystem. Symbolic links are
not modelled. Every function logs the system calls it makes, in order, in
the world's trace, and keeps the history of filesystem snapshots it went
through.
-/

namespace ChartDownloader

/-- Go `string`, as its sequence of characters. -/
abbrev GoString := List Char

/-- Go `[]byte`. -/
abbrev Bytes := List Nat

/-! ## Manifest model (lines 46-65) -/

/-- Maintainer is a struct representing a maintainer inside a chart. -/
structure Maintainer where
  Name : GoString
  Email : GoString
deriving DecidableEq, Repr

/-- Chart is a struct representing a chartmuseum chart in the manifest. -/
structure Chart where
  Name : GoString
  Home : GoString
  Version : GoString
  Description : GoString
  Keywords : List GoString
  Maintainers : List Maintainer
  Icon : GoString
  AppVersion : GoString
  URLS : List GoString
  Created : GoString
  Digest : GoString
deriving DecidableEq, Repr

/-- The decoded manifest `map[string][]Chart`, as the sequence of its
entries in the order in which one `range` statement visits them. -/
abbrev Manifest := List (GoString × List Chart)

/-- Lines 119-128 of `Run`: the three nested `range` loops appending every
`u` to `urls`, over the entries in the order `range data` visits them. -/
def extractURLs (data : Manifest) : List GoString :=
  data.foldl
    (fun urls entry =>
      entry.2.foldl
        (fun urls x => x.URLS.foldl (fun urls u => urls ++ [u]) urls)
        urls)
    []

/-- The URL lists of all charts of a manifest, as the spec words it: the
union over all chart names and all versions of each chart's URL list. -/
def allURLs (m : Manifest) : List GoString :=
  m.flatMap (fun entry => entry.2.flatMap (fun x => x.URLS))

/-! ## Progress reporter (lines 67-90) -/

/-- WriteCounter counts the number of bytes written to it; `Total` is a
`uint64`. -/
structure WriteCounter where
  Total : Nat
deriving DecidableEq, Repr

/-- The error values the program can observe. -/
inductive GoError where
  | createFailed
  | getFailed
  | readFailed
  | writeFailed
  | renameFailed
deriving DecidableEq, Repr

/-- `(wc *WriteCounter) Write(p)`: adds `len(p)` to `Total` with `uint64`
wrap-around and returns `(len(p), nil)`. The call of `PrintProgress` on the
updated counter is logged by the copy loop, see `teeChunk`. -/
def WriteCounter.Write (wc : WriteCounter) (p : Bytes) :
    WriteCounter × Nat × Option GoError :=
  let n := p.length
  ({ Total := (wc.Total + n) % 2 ^ 64 }, n, none)

/-- The counter after a sequence of `Write` calls. -/
def WriteCounter.writeAll (wc : WriteCounter) (chunks : List Bytes) : WriteCounter :=
  chunks.foldl (fun c p => (c.Write p).1) wc

/-! ## Strings -/

/-- Go `strings.TrimPrefix(s, p)`: `s` without the leading `p` when `s`
starts with `p`, and `s` itself otherwise. -/
def TrimPrefix (s p : GoString) : GoString :=
  if p.isPrefixOf s then s.drop p.length else s

/-- Line 135-136: the local path `Run` checks and downloads to. -/
def destination (url : GoString) : GoString :=
  "charts/".toList ++ TrimPrefix url "charts/".toList

/-- Line 139: the URL `Run` hands to `DownloadFile`. -/
def sourceURL (chartmuseumAddress url : GoString) : GoString :=
  chartmuseumAddress ++ "/".toList ++ url

/-- Line 166: the temporary name `DownloadFile` writes to. -/
def tmpName (filepath : GoString) : GoString :=
  filepath ++ ".tmp".toList

/-- The last element of a slash-separated path, after Go `path.Base`: the
spec's "basename". Trailing slashes are dropped first; the empty path gives
"." and a path of slashes only gives "/". -/
def basename (p : GoString) : GoString :=
  if p = [] then ".".toList
  else
    let q := (p.reverse.dropWhile (fun c => c == '/'))
    let e := (q.takeWhile (fun c => c != '/')).reverse
    if e = [] then "/".toList else e

/-! ## The world: filesystem, trace, scripted environment -/

/-- A filesystem node: a regular file with its content, or a directory. -/
inductive Node where
  | file (content : Bytes)
  | dir
deriving DecidableEq, Repr

/-- The local filesystem: what is found at each literal path. -/
abbrev FS := GoString → Option Node

/-- The filesystem with path `p` rebound. -/
def FS.set (fs : FS) (p : GoString) (n : Option Node) : FS :=
  fun q => if q = p then n else fs q

/-- The content written so far to the file at `p`. -/
def FS.content (fs : FS) (p : GoString) : Bytes :=
  match fs p with
  | some (.file c) => c
  | _ => []

/-- `os.Rename(src, dst)` when it succeeds: `dst` now names what `src`
named, and `src` names nothing. -/
def FS.rename (fs : FS) (src dst : GoString) : FS :=
  fun q => if q = dst then fs src else if q = src then none else fs q

/-- The proper ancestors of a literal path: its prefixes that end right
before a slash. -/
def ancestors : GoString → List GoString
  | [] => []
  | c :: cs => (if c = '/' then [[]] else []) ++ (ancestors cs).map (fun a => c :: a)

/-- Whether a regular file is bound at `p`. -/
def FS.isFile (fs : FS) (p : GoString) : Bool :=
  match fs p with
  | some (.file _) => true
  | _ => false

/-- Whether an ancestor of `p` is a regular file, so that resolving `p`
fails with ENOTDIR. -/
def FS.underRegularFile (fs : FS) (p : GoString) : Bool :=
  (ancestors p).any (fun a => fs.isFile a)

/-- `os.Stat(p)` followed by `os.IsNotExist(err)`: true exactly when the
call fails with ENOENT. It does not when something is bound at `p`, when an
ancestor of `p` is a regular file (ENOTDIR), and when the outside gives
another answer (`other`): another error such as EACCES, or a success because
`p` is another spelling of a bound path, such as "charts/" for the charts
directory. In all these cases lines 131 and 136 take the path as present. -/
def FS.isNotExist (fs : FS) (other : Bool) (p : GoString) : Bool :=
  (fs p).isNone && !fs.underRegularFile p && !other

/-- The calls the program makes to the outside, in the order it makes them. -/
inductive Event where
  | stat (path : GoString)
  | mkdir (path : GoString)
  | create (path : GoString)
  | httpGet (url : GoString)
  | write (path : GoString) (data : Bytes)
  | rename (src dst : GoString)
  | stdout (s : GoString)
  | stdoutError (e : GoError)
  | progress (total : Nat)
deriving DecidableEq, Repr

/-- The state threaded through the program: the current filesystem, the
snapshots it went through before (oldest first) and the trace of calls. -/
structure World where
  fs : FS
  past : List FS
  trace : List Event

/-- Appends one call to the trace. -/
def World.log (w : World) (e : Event) : World :=
  { w with trace := w.trace ++ [e] }

/-- Replaces the filesystem, keeping the old one in the history. -/
def World.setFS (w : World) (fs : FS) : World :=
  { w with fs := fs, past := w.past ++ [w.fs] }

/-- How the copy loop of `io.Copy` ends after the chunks read so far: at
end of file, with a read error of the response body, or with a write error
of the output file on one more chunk of which `written` bytes got through. -/
inductive CopyEnd where
  | eof
  | readError
  | writeError (chunk : Bytes) (written : Nat)
deriving DecidableEq, Repr

/-- The HTTP response body as the copy loop sees it: the chunks that
successive `Read` calls deliver, then how the loop ends. -/
structure Body where
  chunks : List Bytes
  ending : CopyEnd
deriving DecidableEq, Repr

/-- What the outside does during one call of `DownloadFile`. `createFails`
is the outcome of `os.Create` of the temporary file, whatever the reason (a
missing or unwritable parent directory, a directory of that name), and
`renameFails` that of `os.Rename`. -/
structure AttemptEnv where
  createFails : Bool
  response : Option Body
  renameFails : Bool
deriving DecidableEq, Repr

/-- What the outside does during one call of `backoff.Retry`: the first
attempt and the further attempts the elapsed-time budget leaves room for.
After the last of them `NextBackOff` returns `Stop`. -/
structure RetryEnv where
  first : AttemptEnv
  more : List AttemptEnv
deriving DecidableEq, Repr

/-- The answer to `http.Get(chartmuseumAddress + "/api/charts")` and
`ioutil.ReadAll`. -/
inductive ManifestResponse where
  | getError
  | readError
  | body (contents : Bytes)
deriving DecidableEq, Repr

/-- What the outside does during one call of `Run`. `unmarshal` is
`json.Unmarshal` into `map[string][]Chart` together with the order in which
`range` visits the map; `chartsStatOther` is the `other` answer to the
`os.Stat` of line 131; `statOther k` is the `other` answer to the `os.Stat`
of line 136 for the URL at position `k` of the extracted list and
`retries k` is used by its download. -/
structure RunEnv where
  manifest : ManifestResponse
  unmarshal : Bytes → Option Manifest
  chartsStatOther : Bool
  mkdirFails : Bool
  statOther : Nat → Bool
  retries : Nat → RetryEnv

/-- How a call of `Run` ends. -/
inductive Termination where
  | returned
  | exit (code : Nat)
  | panic
deriving DecidableEq, Repr

/-- The process exit status: 0 when `Run` returns (`Execute` then returns
to `main`), the argument of `os.Exit`, and 2 for a Go panic that nothing
recovers. -/
def exitStatus : Termination → Nat
  | .returned => 0
  | .exit code => code
  | .panic => 2

/-! ## The file fetcher (lines 159-195) -/

/-- The newline of line 187. -/
def newline : Event :=
  .stdout "\n".toList

/-- One round of the copy loop on a non-empty chunk `p`: the tee reader
hands `p` to the counter, which prints its progress line, and `io.Copy`
writes `p` to the output file. A `Read` of zero bytes does neither. -/
def teeChunk (path : GoString) (st : World × WriteCounter) (p : Bytes) :
    World × WriteCounter :=
  if p.length = 0 then st
  else
    let wc := (st.2.Write p).1
    let w := st.1.log (.progress wc.Total)
    let w := w.log (.write path p)
    (w.setFS (w.fs.set path (some (.file (w.fs.content path ++ p)))), wc)

/-- The copy of line 181, `io.Copy(out, io.TeeReader(resp.Body, counter))`,
into the file created at `path`. -/
def ioCopy (path : GoString) (body : Body) (w : World) (wc : WriteCounter) :
    World × WriteCounter × Option GoError :=
  let st := body.chunks.foldl (teeChunk path) (w, wc)
  match body.ending with
  | .eof => (st.1, st.2, none)
  | .readError => (st.1, st.2, some .readFailed)
  | .writeError chunk written =>
    let wc := (st.2.Write chunk).1
    let w := st.1.log (.progress wc.Total)
    let w := w.log (.write path (chunk.take written))
    (w.setFS (w.fs.set path (some (.file (w.fs.content path ++ chunk.take written)))),
      wc, some .writeFailed)

/-- DownloadFile will download a url to a local file (lines 162-195). -/
def DownloadFile (filepath url : GoString) (env : AttemptEnv) (w : World) :
    World × Option GoError :=
  let w := w.log (.create (tmpName filepath))
  if env.createFails then (w, some .createFailed)
  else
    let w := w.setFS (w.fs.set (tmpName filepath) (some (.file [])))
    let w := w.log (.httpGet url)
    match env.response with
    | none => (w, some .getFailed)
    | some body =>
      match ioCopy (tmpName filepath) body w { Total := 0 } with
      | (w, _, some err) => (w, some err)
      | (w, _, none) =>
        let w := w.log newline
        let w := w.log (.rename (tmpName filepath) filepath)
        if env.renameFails then (w, some .renameFailed)
        else (w.setFS (w.fs.rename (tmpName filepath) filepath), none)

/-! ## The retry policy and the orchestrator (lines 92-157) -/

/-- The loop of `backoff.Retry(f, exponentialBackOff)`: run the operation;
on `nil` return `nil`; on an error return it when the budget is used up and
run the operation again otherwise. -/
def Retry (operation : AttemptEnv → World → World × Option GoError) :
    AttemptEnv → List AttemptEnv → World → World × Option GoError
  | a, more, w =>
    match operation a w with
    | (w1, none) => (w1, none)
    | (w1, some err) =>
      match more with
      | [] => (w1, some err)
      | b :: rest => Retry operation b rest w1

/-- The loop of lines 134-154 over the extracted URLs, the first of which
has position `k`. The result is `some err` when line 150 panics. -/
def RunLoop (chartmuseumAddress : GoString) (statOther : Nat → Bool)
    (retries : Nat → RetryEnv) :
    Nat → List GoString → World → World × Option GoError
  | _, [], w => (w, none)
  | k, url :: rest, w =>
    let w := w.log (.stat (destination url))
    if w.fs.isNotExist (statOther k) (destination url) then
      match Retry (DownloadFile (destination url) (sourceURL chartmuseumAddress url))
          (retries k).first (retries k).more w with
      | (w1, some err) => (w1, some err)
      | (w1, none) => RunLoop chartmuseumAddress statOther retries (k + 1) rest w1
    else RunLoop chartmuseumAddress statOther retries (k + 1) rest w

/-- The message of line 95. -/
def usageMessage : GoString :=
  ("You must enter a url for the chartmuseum server you want to download from " ++
    "using the --url flag\n").toList

/-- Lines 131-133: `os.Stat("charts")` and, when it does not exist,
`os.Mkdir("charts", 0777)`, whose error is dropped. -/
def ensureChartsDir (statOther mkdirFails : Bool) (w : World) : World :=
  let w := w.log (.stat "charts".toList)
  if w.fs.isNotExist statOther "charts".toList then
    let w := w.log (.mkdir "charts".toList)
    if mkdirFails then w
    else w.setFS (w.fs.set "charts".toList (some .dir))
  else w

/-- The line printed when the loop has run through (line 156). -/
def downloadFinished : Event :=
  .stdout "Download Finished\n".toList

/-- Run executes the download (lines 93-157). -/
def Run (chartmuseumAddress : GoString) (env : RunEnv) (w : World) :
    World × Termination :=
  if chartmuseumAddress = [] then
    (w.log (.stdout usageMessage), .exit 1)
  else
    let w := w.log (.stdout "Checking for charts...\n".toList)
    let w := w.log (.httpGet (chartmuseumAddress ++ "/api/charts".toList))
    match env.manifest with
    | .getError => (w.log (.stdoutError .getFailed), .exit 1)
    | .readError => (w.log (.stdoutError .readFailed), .exit 1)
    | .body contents =>
      match env.unmarshal contents with
      | none => (w, .panic)
      | some data =>
        let urls := extractURLs data
        let w := w.log (.stdout "Download Started\n".toList)
        let w := ensureChartsDir env.chartsStatOther env.mkdirFails w
        match RunLoop chartmuseumAddress env.statOther env.retries 0 urls w with
        | (w, some _) => (w, .panic)
        | (w, none) => (w.log downloadFinished, .returned)

/-- The world in which the loop of line 134 starts when `Run` gets that
far from `w`. -/
def loopStart (chartmuseumAddress : GoString) (env : RunEnv) (w : World) : World :=
  ensureChartsDir env.chartsStatOther env.mkdirFails
    (((w.log (.stdout "Checking for charts...\n".toList)).log
      (.httpGet (chartmuseumAddress ++ "/api/charts".toList))).log
      (.stdout "Download Started\n".toList))

/-- The artifact GET requests of a trace, in order: every `http.Get`
except the one to the manifest endpoint of `chartmuseumAddress`. -/
def artifactGets (chartmuseumAddress : GoString) (trace : List Event) : List GoString :=
  trace.filterMap (fun e =>
    match e with
    | .httpGet url => if url = chartmuseumAddress ++ "/api/charts".toList then none else some url
    | _ => none)

/-- All `http.Get` requests of a trace, in order. -/
def httpGets (trace : List Event) : List GoString :=
  trace.filterMap (fun e =>
    match e with
    | .httpGet url => some url
    | _ => none)

/-- The empty filesystem. -/
def FS.empty : FS := fun _ => none

/-- The world at program start on filesystem `fs`. -/
def World.init (fs : FS) : World :=
  { fs := fs, past := [], trace := [] }

/-! ## Concrete inputs -/

/-- A chart of which only the URL list is filled in. -/
def chartWithURLs (urls : List GoString) : Chart :=
  { Name := [], Home := [], Version := [], Description := [], Keywords := [],
    Maintainers := [], Icon := [], AppVersion := [], URLS := urls, Created := [],
    Digest := [] }

/-- The manifest of the spec's scenario:
"mychart" with one version 1.0.0 and the URL charts/mychart-1.0.0.tgz. -/
def mychartManifest : Manifest :=
  [("mychart".toList,
    [{ chartWithURLs ["charts/mychart-1.0.0.tgz".toList] with
        Name := "mychart".toList, Version := "1.0.0".toList }])]

/-- A manifest with two chart names, the first with two versions. -/
def twoNameManifest : Manifest :=
  [("dex".toList,
      [chartWithURLs ["charts/dex-0.1.1.tgz".toList, "charts/dex-0.1.1.prov".toList],
       chartWithURLs ["charts/dex-0.1.0.tgz".toList]]),
   ("etcd".toList, [chartWithURLs ["charts/etcd-1.0.0.tgz".toList]])]

/-- The attempt in which everything works and the body arrives in the given
chunks. -/
def okAttempt (chunks : List Bytes) : AttemptEnv :=
  { createFails := false, response := some { chunks := chunks, ending := .eof },
    renameFails := false }

/-- The attempt in which the body breaks off with a read error after the
given chunks. -/
def brokenAttempt (chunks : List Bytes) : AttemptEnv :=
  { createFails := false, response := some { chunks := chunks, ending := .readError },
    renameFails := false }

/-- The attempt in which `http.Get` returns an error. -/
def refusedAttempt : AttemptEnv :=
  { createFails := false, response := none, renameFails := false }

/-- The base URL of the concrete runs. -/
def exampleAddress : GoString := "http://h".toList

/-- The server that answers the manifest request with `data` and every
artifact request at once with the two bytes 1, 2. -/
def servingEnv (data : Manifest) : RunEnv :=
  { manifest := .body [], unmarshal := fun _ => some data,
    chartsStatOther := false, mkdirFails := false, statOther := fun _ => false,
    retries := fun _ => { first := okAttempt [[1, 2]], more := [] } }

/-- The server whose manifest body does not decode. -/
def garbledEnv : RunEnv :=
  { manifest := .body [123], unmarshal := fun _ => none,
    chartsStatOther := false, mkdirFails := false, statOther := fun _ => false,
    retries := fun _ => { first := okAttempt [[1, 2]], more := [] } }

/-- The server that serves three artifacts a, b, c and refuses every request
for the second one until the retry budget is used up after two attempts. -/
def secondRefusedEnv : RunEnv :=
  { manifest := .body [],
    unmarshal := fun _ =>
      some [("x".toList,
        [chartWithURLs ["charts/a.tgz".toList, "charts/b.tgz".toList, "charts/c.tgz".toList]])],
    chartsStatOther := false, mkdirFails := false,
    statOther := fun _ => false,
    retries := fun k =>
      if k = 1 then { first := refusedAttempt, more := [refusedAttempt] }
      else { first := okAttempt [[1, 2]], more := [] } }

/-- The filesystem that holds the charts directory and the chart of the
spec's scenario. -/
def mychartPresent : FS :=
  (FS.empty.set "charts".toList (some .dir)).set "charts/mychart-1.0.0.tgz".toList
    (some (.file [7]))

/-- The filesystem that holds only the charts directory. -/
def chartsDirOnly : FS :=
  FS.empty.set "charts".toList (some .dir)

/-- The filesystem with the charts directory and a complete older download
at charts/a. -/
def olderDownload : FS :=
  chartsDirOnly.set "charts/a".toList (some (.file [9, 9, 9]))

/-- The filesystem with the charts directory and the directories sub and
other in it. -/
def nestedDirs : FS :=
  (chartsDirOnly.set "charts/sub".toList (some .dir)).set "charts/other".toList (some .dir)

/-- The filesystem in which charts is a regular file. -/
def regularFileNamedCharts : FS :=
  FS.empty.set "charts".toList (some (.file [0]))

/-- A body of two chunks that arrives in full. -/
def twoChunkBody : Body :=
  { chunks := [[1], [2, 3]], ending := .eof }

/-- The attempt in which `os.Create` of the temporary file fails. -/
def createFailedAttempt : AttemptEnv :=
  { createFails := true, response := none, renameFails := false }

/-- The server that lists charts/sub/x.tgz, run in a directory in which
charts/sub does not exist, so that `os.Create` of the temporary file fails
at once in every attempt the retry budget allows, ten here. -/
def missingDirEnv : RunEnv :=
  { manifest := .body [],
    unmarshal := fun _ => some [("x".toList, [chartWithURLs ["charts/sub/x.tgz".toList]])],
    chartsStatOther := false, mkdirFails := false,
    statOther := fun _ => false,
    retries := fun _ =>
      { first := createFailedAttempt, more := List.replicate 9 createFailedAttempt } }

/-- The server that lists the empty path, whose destination "charts/" is
another spelling of the charts directory: `os.Stat` succeeds on it. -/
def emptyPathEnv : RunEnv :=
  { manifest := .body [],
    unmarshal := fun _ => some [("x".toList, [chartWithURLs [[]]])],
    chartsStatOther := false, mkdirFails := false,
    statOther := fun _ => true,
    retries := fun _ => { first := okAttempt [[1, 2]], more := [] } }

/-- The manifest that lists charts/a and then charts/a/b. -/
def fileThenChildManifest : Manifest :=
  [("x".toList, [chartWithURLs ["charts/a".toList, "charts/a/b".toList]])]


/-- The manifest in which one artifact is named like the temporary file of
the next. -/
def collidingManifest : Manifest :=
  [("x".toList, [chartWithURLs ["charts/a.tmp".toList, "charts/a".toList]])]

/-- The manifest in which the artifact named like a temporary file is
listed once more after the artifact it collides with. -/
def collidingTwiceManifest : Manifest :=
  [("x".toList,
    [chartWithURLs ["charts/a.tmp".toList, "charts/a".toList],
     chartWithURLs ["charts/a.tmp".toList]])]

/-- The first run on the colliding manifest, from an empty directory. -/
def firstCollidingRun : World × Termination :=
  Run exampleAddress (servingEnv collidingManifest) (World.init FS.empty)

/-- The second run on the colliding manifest, on the files the first left. -/
def secondCollidingRun : World × Termination :=
  Run exampleAddress (servingEnv collidingManifest) (World.init firstCollidingRun.1.fs)

/-- The world in which the loop of `secondRefusedEnv` reaches its second URL. -/
def beforeSecondRefused : World :=
  (RunLoop exampleAddress secondRefusedEnv.statOther secondRefusedEnv.retries 0
    ["charts/a.tgz".toList]
    (loopStart exampleAddress secondRefusedEnv (World.init FS.empty))).1

/-- The world in which the retry loop for the second URL of
`secondRefusedEnv` gives up. -/
def afterSecondRefused : World :=
  (Retry (DownloadFile (destination "charts/b.tgz".toList)
      (sourceURL exampleAddress "charts/b.tgz".toList))
    refusedAttempt [refusedAttempt]
    (beforeSecondRefused.log (.stat (destination "charts/b.tgz".toList)))).1

/-! ## Predicates on runs -/

/-- From `w` to `r` the filesystem changed at most at `path`, in the final
state and in every snapshot passed on the way. -/
def Frame (path : GoString) (w r : World) : Prop :=
  (∀ q, q ≠ path → r.fs q = w.fs q) ∧
    ∃ mid, r.past = w.past ++ mid ∧ ∀ s ∈ mid, ∀ q, q ≠ path → s q = w.fs q

/-- From `w` to `r` the trace grew by events that all satisfy `P`. -/
def TraceAdds (P : Event → Prop) (w r : World) : Prop :=
  ∃ added, r.trace = w.trace ++ added ∧ ∀ e ∈ added, P e

/-- The error `io.Copy` returns for each way the copy loop can end. -/
def copyError : CopyEnd → Option GoError
  | .eof => none
  | .readError => some .readFailed
  | .writeError _ _ => some .writeFailed

/-- The events of the copy loop into the file at `path`: progress lines
and writes to that file. -/
def Event.isCopyEvent (path : GoString) : Event → Prop
  | .progress _ => True
  | .write p _ => p = path
  | _ => False

/-- The events of a `DownloadFile(filepath, url)` call: the create of the
temporary file, the GET of `url`, the copy into the temporary file, the
newline and the rename of the temporary file to `filepath`. -/
def Event.isAttemptEvent (filepath url : GoString) : Event → Prop
  | .create p => p = tmpName filepath
  | .httpGet u => u = url
  | .write p _ => p = tmpName filepath
  | .rename src dst => src = tmpName filepath ∧ dst = filepath
  | .progress _ => True
  | .stdout s => s = "\n".toList
  | _ => False

/-- In `w` the file at `dest` holds, byte for byte, the body that one of
the attempts received in full. -/
def DownloadedAt (w : World) (dest : GoString) (attempts : List AttemptEnv) : Prop :=
  ∃ a ∈ attempts, ∃ body, a.response = some body ∧ body.ending = .eof ∧
    w.fs dest = some (.file body.chunks.flatten)

/-- Every URL of the list whose destination the check of line 136 reported
as not existing when the loop reached it was downloaded: its
`backoff.Retry` returned nil and left at the destination the body that one
of its attempts received in full, and the loop went on from the world that
retry loop left. -/
def EveryMissingDownloaded (chartmuseumAddress : GoString) (statOther : Nat → Bool)
    (retries : Nat → RetryEnv) (urls : List GoString) (w : World) : Prop :=
  ∀ pre url post, urls = pre ++ url :: post →
    ∃ w1, RunLoop chartmuseumAddress statOther retries 0 pre w = (w1, none) ∧
      (w1.fs.isNotExist (statOther pre.length) (destination url) = true →
        ∃ w2, Retry (DownloadFile (destination url) (sourceURL chartmuseumAddress url))
            (retries pre.length).first (retries pre.length).more
            (w1.log (.stat (destination url))) = (w2, none) ∧
          DownloadedAt w2 (destination url)
            ((retries pre.length).first :: (retries pre.length).more) ∧
          RunLoop chartmuseumAddress statOther retries 0 (pre ++ [url]) w = (w2, none))

/-- No destination of the list, and no ancestor of one, is the temporary
name of a destination of the list. -/
def NoTmpCollision (urls : List GoString) : Prop :=
  ∀ u ∈ urls, ∀ v ∈ urls, destination u ≠ tmpName (destination v) ∧
    ∀ a ∈ ancestors (destination u), a ≠ tmpName (destination v)

/-- On filesystem `fs` the check of line 136 takes every URL of the list,
the first of which has position `k`, as present. -/
def AllSkipped (statOther : Nat → Bool) (fs : FS) : Nat → List GoString → Prop
  | _, [] => True
  | k, url :: rest =>
    fs.isNotExist (statOther k) (destination url) = false ∧ AllSkipped statOther fs (k + 1) rest

/-! # Theorems -/

/-! ## Artifact path extraction -/

theorem foldl_append_singleton (us acc : List GoString) :
    us.foldl (fun urls u => urls ++ [u]) acc = acc ++ us := by
  induction us generalizing acc with
  | nil => simp
  | cons u us ih => simp [ih]

theorem foldl_versions (v : List Chart) (acc : List GoString) :
    v.foldl (fun urls x => x.URLS.foldl (fun urls u => urls ++ [u]) urls) acc
      = acc ++ v.flatMap (fun x => x.URLS) := by
  induction v generalizing acc with
  | nil => simp
  | cons x v ih =>
    rw [List.foldl_cons, foldl_append_singleton, ih]
    simp

theorem foldl_entries (data : Manifest) (acc : List GoString) :
    data.foldl
        (fun urls entry =>
          entry.2.foldl (fun urls x => x.URLS.foldl (fun urls u => urls ++ [u]) urls) urls)
        acc
      = acc ++ allURLs data := by
  induction data generalizing acc with
  | nil => simp [allURLs]
  | cons e data ih =>
    rw [List.foldl_cons, foldl_versions, ih]
    simp [allURLs]

theorem extractURLs_eq_allURLs (data : Manifest) : extractURLs data = allURLs data := by
  simp [extractURLs, foldl_entries]

theorem length_allURLs (m : Manifest) :
    (allURLs m).length
      = (m.map (fun entry => (entry.2.map (fun x => x.URLS.length)).sum)).sum := by
  induction m with
  | nil => simp [allURLs]
  | cons e m ih =>
    have hv : ∀ v : List Chart,
        (v.flatMap (fun x => x.URLS)).length = (v.map (fun x => x.URLS.length)).sum := by
      intro v
      induction v with
      | nil => simp
      | cons x v ihv => simp [ihv]
    simp only [allURLs] at ih
    simp [allURLs, ih, hv]

/-- C1: whatever order `range` visits the chart names of a manifest `m`
in, the extracted list is the concatenation, over the names in that order,
over each name's versions in their order, of each chart's `URLS` in its
order; it is a permutation of all URLS lists of `m` taken together and its
length is the sum of their lengths. -/
theorem extractURLs_concat_in_range_order (m order : Manifest) (h : order.Perm m) :
    extractURLs order
        = (order.map (fun entry => (entry.2.map (fun x => x.URLS)).flatten)).flatten
      ∧ (extractURLs order).Perm (allURLs m)
      ∧ (extractURLs order).length
        = (m.map (fun entry => (entry.2.map (fun x => x.URLS.length)).sum)).sum := by
  have hperm : (allURLs order).Perm (allURLs m) := by
    unfold allURLs
    exact h.flatMap_right _
  refine ⟨?_, ?_, ?_⟩
  · rw [extractURLs_eq_allURLs]
    simp [allURLs, List.flatMap_def]
  · rw [extractURLs_eq_allURLs]
    exact hperm
  · rw [extractURLs_eq_allURLs, hperm.length_eq, length_allURLs]

/-! ## Progress accounting -/

theorem writeAll_total (chunks : List Bytes) (wc : WriteCounter) :
    (wc.writeAll chunks).Total = (wc.Total + (chunks.map List.length).sum) % 2 ^ 64
      ∨ (chunks = [] ∧ (wc.writeAll chunks).Total = wc.Total) := by
  induction chunks generalizing wc with
  | nil => right; simp [WriteCounter.writeAll]
  | cons p ps ih =>
    left
    rcases ih (wc.Write p).1 with h | ⟨hnil, h⟩
    · simp only [WriteCounter.writeAll, List.foldl_cons] at h ⊢
      rw [h]
      simp [WriteCounter.Write, Nat.add_assoc]
    · subst hnil
      simp [WriteCounter.writeAll, WriteCounter.Write]

/-- C5: after any sequence of chunks is written to a fresh counter, `Total`
is the sum of the chunk lengths modulo 2^64, and every single `Write(p)`
returns `(len(p), nil)`. -/
theorem writeCounter_total_and_returns (chunks : List Bytes) :
    (({ Total := 0 } : WriteCounter).writeAll chunks).Total
        = (chunks.map List.length).sum % 2 ^ 64
      ∧ ∀ (wc : WriteCounter) (p : Bytes), (wc.Write p).2 = (p.length, none) := by
  refine ⟨?_, fun wc p => rfl⟩
  rcases writeAll_total chunks { Total := 0 } with h | ⟨hnil, h⟩
  · simpa using h
  · subst hnil
    simp [WriteCounter.writeAll]

/-! ## Frames: what a step leaves alone -/

theorem Frame.frameRefl (path : GoString) (w : World) : Frame path w w :=
  ⟨fun _ _ => rfl, [], by simp, by simp⟩

theorem Frame.frameTrans {path : GoString} {w r t : World}
    (h1 : Frame path w r) (h2 : Frame path r t) : Frame path w t := by
  obtain ⟨hfs1, mid1, hp1, hm1⟩ := h1
  obtain ⟨hfs2, mid2, hp2, hm2⟩ := h2
  refine ⟨fun q hq => by rw [hfs2 q hq, hfs1 q hq], mid1 ++ mid2, by simp [hp2, hp1], ?_⟩
  intro s hs q hq
  rcases List.mem_append.1 hs with h | h
  · exact hm1 s h q hq
  · rw [hm2 s h q hq, hfs1 q hq]

theorem Frame.frameLog (path : GoString) (w : World) (e : Event) : Frame path w (w.log e) :=
  ⟨fun _ _ => rfl, [], by simp [World.log], by simp⟩

theorem Frame.frameSetAt (path : GoString) (w : World) (n : Option Node) :
    Frame path w (w.setFS (w.fs.set path n)) := by
  refine ⟨fun q hq => by simp [World.setFS, FS.set, hq], [w.fs], by simp [World.setFS], ?_⟩
  intro s hs q _
  simp at hs
  rw [hs]

theorem TraceAdds.addsRefl (P : Event → Prop) (w : World) : TraceAdds P w w :=
  ⟨[], by simp, by simp⟩

theorem TraceAdds.addsTrans {P : Event → Prop} {w r t : World}
    (h1 : TraceAdds P w r) (h2 : TraceAdds P r t) : TraceAdds P w t := by
  obtain ⟨a1, ht1, hp1⟩ := h1
  obtain ⟨a2, ht2, hp2⟩ := h2
  refine ⟨a1 ++ a2, by simp [ht2, ht1], ?_⟩
  intro e he
  rcases List.mem_append.1 he with h | h
  · exact hp1 e h
  · exact hp2 e h

theorem TraceAdds.addsLog {P : Event → Prop} (w : World) (e : Event) (h : P e) :
    TraceAdds P w (w.log e) :=
  ⟨[e], rfl, by simpa using h⟩

theorem TraceAdds.addsSetFS {P : Event → Prop} (w : World) (fs : FS) :
    TraceAdds P w (w.setFS fs) :=
  ⟨[], by simp [World.setFS], by simp⟩

theorem TraceAdds.addsMono {P Q : Event → Prop} {w r : World}
    (h : TraceAdds P w r) (hpq : ∀ e, P e → Q e) : TraceAdds Q w r := by
  obtain ⟨a, ht, hp⟩ := h
  exact ⟨a, ht, fun e he => hpq e (hp e he)⟩

theorem tmpName_ne (filepath : GoString) : filepath ≠ tmpName filepath := by
  intro h
  have hl := congrArg List.length h
  simp [tmpName] at hl

/-! ## The copy loop -/

theorem teeChunk_frame (path : GoString) (st : World × WriteCounter) (p : Bytes) :
    Frame path st.1 (teeChunk path st p).1 := by
  unfold teeChunk
  split
  · exact Frame.frameRefl _ _
  · exact ((Frame.frameLog path st.1 _).frameTrans (Frame.frameLog path _ _)).frameTrans (Frame.frameSetAt path _ _)

theorem teeChunk_trace (path : GoString) (st : World × WriteCounter) (p : Bytes) :
    TraceAdds (Event.isCopyEvent path) st.1 (teeChunk path st p).1 := by
  unfold teeChunk
  split
  · exact TraceAdds.addsRefl _ _
  · have h1 : TraceAdds (Event.isCopyEvent path) st.1
        (st.1.log (.progress (st.2.Write p).1.Total)) := TraceAdds.addsLog _ _ trivial
    have h2 : TraceAdds (Event.isCopyEvent path) (st.1.log (.progress (st.2.Write p).1.Total))
        ((st.1.log (.progress (st.2.Write p).1.Total)).log (.write path p)) :=
      TraceAdds.addsLog _ _ rfl
    exact (h1.addsTrans h2).addsTrans (TraceAdds.addsSetFS _ _)

theorem teeChunk_content (path : GoString) (st : World × WriteCounter) (p c : Bytes)
    (h : st.1.fs path = some (.file c)) :
    (teeChunk path st p).1.fs path = some (.file (c ++ p)) := by
  unfold teeChunk
  split
  · rename_i hp
    have : p = [] := List.eq_nil_of_length_eq_zero hp
    simp [this, h]
  · simp [World.setFS, World.log, FS.set, FS.content, h]

theorem foldl_teeChunk_frame (path : GoString) (chunks : List Bytes)
    (st : World × WriteCounter) :
    Frame path st.1 (chunks.foldl (teeChunk path) st).1 := by
  induction chunks generalizing st with
  | nil => exact Frame.frameRefl _ _
  | cons p ps ih => exact (teeChunk_frame path st p).frameTrans (ih _)

theorem foldl_teeChunk_trace (path : GoString) (chunks : List Bytes)
    (st : World × WriteCounter) :
    TraceAdds (Event.isCopyEvent path) st.1 (chunks.foldl (teeChunk path) st).1 := by
  induction chunks generalizing st with
  | nil => exact TraceAdds.addsRefl _ _
  | cons p ps ih => exact (teeChunk_trace path st p).addsTrans (ih _)

theorem foldl_teeChunk_content (path : GoString) (chunks : List Bytes)
    (st : World × WriteCounter) (c : Bytes) (h : st.1.fs path = some (.file c)) :
    (chunks.foldl (teeChunk path) st).1.fs path = some (.file (c ++ chunks.flatten)) := by
  induction chunks generalizing st c with
  | nil => simpa using h
  | cons p ps ih =>
    have := ih (teeChunk path st p) (c ++ p) (teeChunk_content path st p c h)
    simpa [List.append_assoc] using this

theorem ioCopy_frame (path : GoString) (body : Body) (w : World) (wc : WriteCounter) :
    Frame path w (ioCopy path body w wc).1 := by
  have h := foldl_teeChunk_frame path body.chunks (w, wc)
  unfold ioCopy
  cases body.ending with
  | eof => exact h
  | readError => exact h
  | writeError chunk written =>
    exact h.frameTrans (((Frame.frameLog path _ _).frameTrans (Frame.frameLog path _ _)).frameTrans
      (Frame.frameSetAt path _ _))

theorem ioCopy_trace (path : GoString) (body : Body) (w : World) (wc : WriteCounter) :
    TraceAdds (Event.isCopyEvent path) w (ioCopy path body w wc).1 := by
  have h := foldl_teeChunk_trace path body.chunks (w, wc)
  unfold ioCopy
  cases body.ending with
  | eof => exact h
  | readError => exact h
  | writeError chunk written =>
    have h1 : ∀ (x : World) (t : Nat), TraceAdds (Event.isCopyEvent path) x
        (x.log (.progress t)) := fun x t => TraceAdds.addsLog _ _ trivial
    have h2 : ∀ (x : World) (d : Bytes), TraceAdds (Event.isCopyEvent path) x
        (x.log (.write path d)) := fun x d => TraceAdds.addsLog _ _ rfl
    exact h.addsTrans (((h1 _ _).addsTrans (h2 _ _)).addsTrans (TraceAdds.addsSetFS _ _))

theorem ioCopy_error_iff (path : GoString) (body : Body) (w : World) (wc : WriteCounter) :
    (ioCopy path body w wc).2.2 = none ↔ body.ending = .eof := by
  unfold ioCopy
  cases body.ending <;> simp

theorem ioCopy_content (path : GoString) (body : Body) (w : World) (wc : WriteCounter)
    (c : Bytes) (h : w.fs path = some (.file c)) (hend : body.ending = .eof) :
    (ioCopy path body w wc).1.fs path = some (.file (c ++ body.chunks.flatten)) := by
  have := foldl_teeChunk_content path body.chunks (w, wc) c h
  unfold ioCopy
  rw [hend]
  exact this

/-! ## One download attempt -/

theorem DownloadFile_cases (filepath url : GoString) (env : AttemptEnv) (w : World) :
    ((DownloadFile filepath url env w).2 ≠ none ∧
        Frame (tmpName filepath) w (DownloadFile filepath url env w).1 ∧
        ¬ (env.createFails = false ∧ env.renameFails = false ∧
            ∃ body, env.response = some body ∧ body.ending = .eof))
      ∨ ((DownloadFile filepath url env w).2 = none ∧
        env.createFails = false ∧ env.renameFails = false ∧
        ∃ body w1, env.response = some body ∧ body.ending = .eof ∧
          Frame (tmpName filepath) w w1 ∧
          w1.fs (tmpName filepath) = some (.file body.chunks.flatten) ∧
          (DownloadFile filepath url env w).1
            = w1.setFS (w1.fs.rename (tmpName filepath) filepath)) := by
  unfold DownloadFile
  cases hc : env.createFails with
  | true =>
    left
    simp only [if_true]
    exact ⟨by simp, Frame.frameLog _ _ _, by simp⟩
  | false =>
    have hstart : Frame (tmpName filepath) w
        (((w.log (.create (tmpName filepath))).setFS
          ((w.log (.create (tmpName filepath))).fs.set (tmpName filepath)
            (some (.file [])))).log (.httpGet url)) :=
      ((Frame.frameLog _ _ _).frameTrans (Frame.frameSetAt _ _ _)).frameTrans (Frame.frameLog _ _ _)
    cases hr : env.response with
    | none =>
      left
      simp only [Bool.false_eq_true, if_false]
      exact ⟨by simp, hstart, by simp⟩
    | some body =>
      simp only [Bool.false_eq_true, if_false]
      have hfr := ioCopy_frame (tmpName filepath) body
        (((w.log (.create (tmpName filepath))).setFS
          ((w.log (.create (tmpName filepath))).fs.set (tmpName filepath)
            (some (.file [])))).log (.httpGet url)) { Total := 0 }
      have hiff := ioCopy_error_iff (tmpName filepath) body
        (((w.log (.create (tmpName filepath))).setFS
          ((w.log (.create (tmpName filepath))).fs.set (tmpName filepath)
            (some (.file [])))).log (.httpGet url)) { Total := 0 }
      have hcont := ioCopy_content (tmpName filepath) body
        (((w.log (.create (tmpName filepath))).setFS
          ((w.log (.create (tmpName filepath))).fs.set (tmpName filepath)
            (some (.file [])))).log (.httpGet url)) { Total := 0 } []
        (by simp [World.log, World.setFS, FS.set])
      rcases hio : ioCopy (tmpName filepath) body
        (((w.log (.create (tmpName filepath))).setFS
          ((w.log (.create (tmpName filepath))).fs.set (tmpName filepath)
            (some (.file [])))).log (.httpGet url)) { Total := 0 } with ⟨w2, wc2, _ | err⟩
      · rw [hio] at hfr hiff hcont
        have hend : body.ending = .eof := hiff.1 rfl
        cases hn : env.renameFails with
        | true =>
          left
          simp only [if_true]
          exact ⟨by simp, (hstart.frameTrans hfr).frameTrans
            ((Frame.frameLog _ _ _).frameTrans (Frame.frameLog _ _ _)), by simp⟩
        | false =>
          right
          simp only [Bool.false_eq_true, if_false]
          refine ⟨trivial, trivial, trivial, body, _, rfl, hend,
            (hstart.frameTrans hfr).frameTrans ((Frame.frameLog _ _ _).frameTrans (Frame.frameLog _ _ _)), ?_, rfl⟩
          simpa [World.log] using hcont hend
      · rw [hio] at hfr hiff
        left
        refine ⟨by simp, hstart.frameTrans hfr, ?_⟩
        rintro ⟨-, -, b, hb, hend⟩
        cases hb
        have := hiff.2 hend
        simp at this

/-- C3: a `DownloadFile` attempt whose body is copied in full and whose
rename succeeds returns nil and leaves at the destination exactly the bytes
of the body and nothing at the temporary name; every filesystem snapshot
the attempt goes through before its last has at the destination what was
there before the attempt, and so has the last one when the attempt returns
an error. -/
theorem downloadFile_atomic (filepath url : GoString) (env : AttemptEnv) (w : World) :
    (∀ body, env.createFails = false → env.response = some body → body.ending = .eof →
        env.renameFails = false →
        (DownloadFile filepath url env w).2 = none ∧
          (DownloadFile filepath url env w).1.fs filepath
            = some (.file body.chunks.flatten) ∧
          (DownloadFile filepath url env w).1.fs (tmpName filepath) = none)
      ∧ (∃ mid, (DownloadFile filepath url env w).1.past = w.past ++ mid ∧
          ∀ s ∈ mid, s filepath = w.fs filepath)
      ∧ ((DownloadFile filepath url env w).2 ≠ none →
          (DownloadFile filepath url env w).1.fs filepath = w.fs filepath) := by
  have hne := tmpName_ne filepath
  rcases DownloadFile_cases filepath url env w with
    ⟨herr, ⟨hfs, mid, hpast, hmid⟩, hnot⟩ | ⟨hok, hc, hn, body, w1, hr, hend, ⟨hfs, mid, hpast, hmid⟩, htmp, hw⟩
  · refine ⟨?_, ⟨mid, hpast, fun s hs => hmid s hs _ hne⟩, fun _ => hfs _ hne⟩
    intro body hc hr hend hn
    exact absurd ⟨hc, hn, body, hr, hend⟩ hnot
  · refine ⟨?_, ?_, fun h => absurd hok h⟩
    · intro b _ hb _ _
      rw [hr] at hb
      cases hb
      refine ⟨hok, ?_, ?_⟩
      · rw [hw]
        simp [World.setFS, FS.rename, htmp]
      · rw [hw]
        simp [World.setFS, FS.rename, hne.symm]
    · refine ⟨mid ++ [w1.fs], ?_, ?_⟩
      · rw [hw]
        simp [World.setFS, hpast]
      · intro s hs
        rcases List.mem_append.1 hs with h | h
        · exact hmid s h _ hne
        · simp at h
          rw [h]
          exact hfs _ hne

theorem ioCopy_error (path : GoString) (body : Body) (w : World) (wc : WriteCounter) :
    (ioCopy path body w wc).2.2 = copyError body.ending := by
  unfold ioCopy
  cases body.ending <;> rfl

/-- The trace and the result of one attempt that got as far as the response
body: create, GET, the events of the copy loop and, only when the copy
ended at end of file, the newline and the rename. -/
theorem DownloadFile_trace (filepath url : GoString) (env : AttemptEnv) (w : World)
    (body : Body) (hc : env.createFails = false) (hr : env.response = some body) :
    ∃ copied, (∀ e ∈ copied, Event.isCopyEvent (tmpName filepath) e) ∧
      (DownloadFile filepath url env w).1.trace
        = w.trace ++ [.create (tmpName filepath), .httpGet url] ++ copied
          ++ (if body.ending = .eof then [newline, .rename (tmpName filepath) filepath]
              else []) ∧
      (DownloadFile filepath url env w).2
        = (if body.ending = .eof then
            (if env.renameFails then some .renameFailed else none)
          else copyError body.ending) := by
  unfold DownloadFile
  simp only [hc, hr, Bool.false_eq_true, if_false]
  have htr := ioCopy_trace (tmpName filepath) body
    (((w.log (.create (tmpName filepath))).setFS
      ((w.log (.create (tmpName filepath))).fs.set (tmpName filepath)
        (some (.file [])))).log (.httpGet url)) { Total := 0 }
  have herr := ioCopy_error (tmpName filepath) body
    (((w.log (.create (tmpName filepath))).setFS
      ((w.log (.create (tmpName filepath))).fs.set (tmpName filepath)
        (some (.file [])))).log (.httpGet url)) { Total := 0 }
  rcases hio : ioCopy (tmpName filepath) body
    (((w.log (.create (tmpName filepath))).setFS
      ((w.log (.create (tmpName filepath))).fs.set (tmpName filepath)
        (some (.file [])))).log (.httpGet url)) { Total := 0 } with ⟨w2, wc2, _ | err⟩
  · rw [hio] at htr herr
    obtain ⟨copied, htrace, hcopied⟩ := htr
    have hend : body.ending = .eof := by
      cases hb : body.ending <;> simp [hb, copyError] at herr ⊢
    refine ⟨copied, hcopied, ?_, ?_⟩
    · simp only [hend, if_true]
      cases env.renameFails <;>
        simp [World.log, World.setFS] at htrace ⊢ <;> simp [htrace]
    · simp only [hend, if_true]
      cases env.renameFails <;> simp
  · rw [hio] at htr herr
    obtain ⟨copied, htrace, hcopied⟩ := htr
    have hend : body.ending ≠ .eof := by
      intro h
      rw [h] at herr
      simp [copyError] at herr
    refine ⟨copied, hcopied, ?_, ?_⟩
    · simp only [hend, if_false]
      simp [World.log, World.setFS] at htrace ⊢
      simp [htrace]
    · simp only [hend, if_false]
      exact herr

/-- C9 (amended): in a `DownloadFile` attempt that starts the body transfer
the newline is written to standard output exactly once when the stream copy
ends without error (then right after the copy and before the rename,
whose outcome is the result of the attempt), and when the copy fails the
attempt returns the copy error and writes no newline. -/
theorem downloadFile_newline_only_after_successful_copy (filepath url : GoString)
    (env : AttemptEnv) (w : World) (body : Body)
    (hc : env.createFails = false) (hr : env.response = some body) :
    ∃ added copied, (DownloadFile filepath url env w).1.trace = w.trace ++ added ∧
      added.count newline = (if body.ending = .eof then 1 else 0) ∧
      newline ∉ copied ∧
      added = [.create (tmpName filepath), .httpGet url] ++ copied
          ++ (if body.ending = .eof then [newline, .rename (tmpName filepath) filepath]
              else []) ∧
      (body.ending = .eof →
        (DownloadFile filepath url env w).2
          = (if env.renameFails then some .renameFailed else none)) ∧
      (body.ending ≠ .eof →
        (DownloadFile filepath url env w).2 = copyError body.ending ∧
          (DownloadFile filepath url env w).2 ≠ none ∧ added.count newline = 0) := by
  obtain ⟨copied, hcopied, htrace, hres⟩ := DownloadFile_trace filepath url env w body hc hr
  have hnot : newline ∉ copied := by
    intro h
    have := hcopied _ h
    simp [newline, Event.isCopyEvent] at this
  have h0 : copied.count newline = 0 := List.count_eq_zero_of_not_mem hnot
  have h1 : (Event.create (tmpName filepath) == newline) = false := by
    simp [newline]
  have h2 : (Event.httpGet url == newline) = false := by
    simp [newline]
  have h3 : (Event.rename (tmpName filepath) filepath == newline) = false := by
    simp [newline]
  have hcount : ([Event.create (tmpName filepath), Event.httpGet url] ++ copied
      ++ (if body.ending = .eof then [newline, .rename (tmpName filepath) filepath]
          else [])).count newline = (if body.ending = .eof then 1 else 0) := by
    by_cases hend : body.ending = .eof
    · simp [hend, List.count_append, h0, List.count_cons, h1, h2, h3]
    · simp [hend, List.count_append, h0, List.count_cons, h1, h2, h3]
  refine ⟨_, copied, ?_, hcount, hnot, rfl, ?_, ?_⟩
  · rw [htrace]
    simp [List.append_assoc]
  · intro hend
    rw [hres]
    simp [hend]
  · intro hend
    refine ⟨?_, ?_, ?_⟩
    · rw [hres]
      simp [hend]
    · rw [hres]
      simp only [hend, if_false]
      cases hb : body.ending <;> simp [hb, copyError] at hend ⊢
    · rw [hcount]
      simp [hend]

/-! ## The retry loop and the loop over the URLs -/

theorem Retry_eq (op : AttemptEnv → World → World × Option GoError)
    (a : AttemptEnv) (more : List AttemptEnv) (w : World) :
    Retry op a more w =
      match op a w with
      | (w1, none) => (w1, none)
      | (w1, some err) =>
        match more with
        | [] => (w1, some err)
        | b :: rest => Retry op b rest w1 := by
  rw [Retry]

theorem Retry_first_success (op : AttemptEnv → World → World × Option GoError)
    (a : AttemptEnv) (more : List AttemptEnv) (w w1 : World) (h : op a w = (w1, none)) :
    Retry op a more w = (w1, none) := by
  rw [Retry_eq, h]

theorem Retry_later_success (op : AttemptEnv → World → World × Option GoError)
    (a b : AttemptEnv) (failing unused : List AttemptEnv) (w wf w2 : World) (err : GoError)
    (hfail : Retry op a failing w = (wf, some err)) (hb : op b wf = (w2, none)) :
    Retry op a (failing ++ b :: unused) w = (w2, none) := by
  induction failing generalizing a w with
  | nil =>
    rw [Retry_eq] at hfail
    rw [Retry_eq]
    rcases ha : op a w with ⟨wa, _ | e⟩
    · rw [ha] at hfail
      simp at hfail
    · rw [ha] at hfail
      simp only [Prod.mk.injEq] at hfail
      simp only [List.nil_append]
      rw [hfail.1]
      exact Retry_first_success op b unused wf w2 hb
  | cons c cs ih =>
    rw [Retry_eq] at hfail
    rw [Retry_eq]
    rcases ha : op a w with ⟨wa, _ | e⟩
    · rw [ha] at hfail
      simp at hfail
    · rw [ha] at hfail
      simp only [List.cons_append]
      exact ih c wa hfail

theorem Retry_keeps (P : World → Prop) (op : AttemptEnv → World → World × Option GoError)
    (hop : ∀ a w, P w → P (op a w).1) (a : AttemptEnv) (more : List AttemptEnv)
    (w : World) (hw : P w) : P (Retry op a more w).1 := by
  induction more generalizing a w with
  | nil =>
    rw [Retry_eq]
    have := hop a w hw
    rcases ha : op a w with ⟨wa, _ | e⟩ <;> rw [ha] at this <;> exact this
  | cons c cs ih =>
    rw [Retry_eq]
    have := hop a w hw
    rcases ha : op a w with ⟨wa, _ | e⟩ <;> rw [ha] at this
    · exact this
    · exact ih c wa this

theorem Retry_ok (op : AttemptEnv → World → World × Option GoError)
    (a : AttemptEnv) (more : List AttemptEnv) (w w1 : World)
    (h : Retry op a more w = (w1, none)) :
    ∃ b wf, b ∈ a :: more ∧ op b wf = (w1, none) := by
  induction more generalizing a w with
  | nil =>
    rw [Retry_eq] at h
    rcases ha : op a w with ⟨wa, _ | e⟩
    · rw [ha] at h
      simp only [Prod.mk.injEq, and_true] at h
      exact ⟨a, w, List.mem_cons_self _ _, h ▸ ha⟩
    · rw [ha] at h
      simp at h
  | cons c cs ih =>
    rw [Retry_eq] at h
    rcases ha : op a w with ⟨wa, _ | e⟩
    · rw [ha] at h
      simp only [Prod.mk.injEq, and_true] at h
      exact ⟨a, w, List.mem_cons_self _ _, h ▸ ha⟩
    · rw [ha] at h
      obtain ⟨b, wf, hb, hop⟩ := ih c wa h
      exact ⟨b, wf, List.mem_cons_of_mem _ hb, hop⟩

theorem Retry_adds (P : Event → Prop) (op : AttemptEnv → World → World × Option GoError)
    (hop : ∀ a w, TraceAdds P w (op a w).1) (a : AttemptEnv) (more : List AttemptEnv)
    (w : World) : TraceAdds P w (Retry op a more w).1 := by
  induction more generalizing a w with
  | nil =>
    rw [Retry_eq]
    have := hop a w
    rcases ha : op a w with ⟨wa, _ | e⟩ <;> rw [ha] at this <;> exact this
  | cons c cs ih =>
    rw [Retry_eq]
    have := hop a w
    rcases ha : op a w with ⟨wa, _ | e⟩ <;> rw [ha] at this
    · exact this
    · exact this.addsTrans (ih c wa)

theorem DownloadFile_ok (filepath url : GoString) (env : AttemptEnv) (w w1 : World)
    (h : DownloadFile filepath url env w = (w1, none)) :
    ∃ body, env.response = some body ∧ body.ending = .eof ∧
      w1.fs filepath = some (.file body.chunks.flatten) := by
  rcases DownloadFile_cases filepath url env w with
    ⟨herr, _, _⟩ | ⟨_, _, _, body, w2, hr, hend, _, htmp, hw⟩
  · rw [h] at herr
    exact absurd rfl herr
  · rw [h] at hw
    simp only [] at hw
    refine ⟨body, hr, hend, ?_⟩
    rw [hw]
    simp [World.setFS, FS.rename, htmp]

theorem Retry_downloaded (filepath url : GoString) (a : AttemptEnv)
    (more : List AttemptEnv) (w w1 : World)
    (h : Retry (DownloadFile filepath url) a more w = (w1, none)) :
    DownloadedAt w1 filepath (a :: more) := by
  obtain ⟨b, wf, hb, hop⟩ := Retry_ok _ a more w w1 h
  obtain ⟨body, hr, hend, hfs⟩ := DownloadFile_ok filepath url b wf w1 hop
  exact ⟨b, hb, body, hr, hend, hfs⟩

theorem DownloadFile_after_create (filepath url : GoString) (env : AttemptEnv)
    (w : World) :
    TraceAdds (Event.isAttemptEvent filepath url) (w.log (.create (tmpName filepath)))
      (DownloadFile filepath url env w).1 := by
  have hget : ∀ x : World, TraceAdds (Event.isAttemptEvent filepath url) x
      (x.log (.httpGet url)) := fun x => TraceAdds.addsLog _ _ rfl
  have hnl : ∀ x : World, TraceAdds (Event.isAttemptEvent filepath url) x
      (x.log newline) := fun x => TraceAdds.addsLog _ _ rfl
  have hren : ∀ x : World, TraceAdds (Event.isAttemptEvent filepath url) x
      (x.log (.rename (tmpName filepath) filepath)) :=
    fun x => TraceAdds.addsLog _ _ ⟨rfl, rfl⟩
  have hcopy : ∀ e, Event.isCopyEvent (tmpName filepath) e →
      Event.isAttemptEvent filepath url e := by
    intro e he
    cases e <;> simp [Event.isCopyEvent, Event.isAttemptEvent] at he ⊢
    exact he
  have hstart : TraceAdds (Event.isAttemptEvent filepath url)
      (w.log (.create (tmpName filepath)))
      (((w.log (.create (tmpName filepath))).setFS
        ((w.log (.create (tmpName filepath))).fs.set (tmpName filepath)
          (some (.file [])))).log (.httpGet url)) :=
    (TraceAdds.addsSetFS _ _).addsTrans (hget _)
  unfold DownloadFile
  cases env.createFails with
  | true => exact TraceAdds.addsRefl _ _
  | false =>
    simp only [Bool.false_eq_true, if_false]
    cases env.response with
    | none => exact hstart
    | some body =>
      simp only []
      have htr := (ioCopy_trace (tmpName filepath) body
        (((w.log (.create (tmpName filepath))).setFS
          ((w.log (.create (tmpName filepath))).fs.set (tmpName filepath)
            (some (.file [])))).log (.httpGet url)) { Total := 0 }).addsMono hcopy
      rcases hio : ioCopy (tmpName filepath) body
        (((w.log (.create (tmpName filepath))).setFS
          ((w.log (.create (tmpName filepath))).fs.set (tmpName filepath)
            (some (.file [])))).log (.httpGet url)) { Total := 0 } with ⟨w2, wc2, _ | err⟩
      · rw [hio] at htr
        have hfin : TraceAdds (Event.isAttemptEvent filepath url)
            (w.log (.create (tmpName filepath)))
            ((w2.log newline).log (.rename (tmpName filepath) filepath)) :=
          (hstart.addsTrans htr).addsTrans ((hnl _).addsTrans (hren _))
        cases env.renameFails with
        | true =>
          simp only [if_true]
          exact hfin
        | false =>
          simp only [Bool.false_eq_true, if_false]
          exact hfin.addsTrans (TraceAdds.addsSetFS _ _)
      · rw [hio] at htr
        exact hstart.addsTrans htr

theorem DownloadFile_attempt_events (filepath url : GoString) (env : AttemptEnv)
    (w : World) :
    TraceAdds (Event.isAttemptEvent filepath url) w (DownloadFile filepath url env w).1 := by
  have hcreate : TraceAdds (Event.isAttemptEvent filepath url) w
      (w.log (.create (tmpName filepath))) := TraceAdds.addsLog _ _ rfl
  exact hcreate.addsTrans (DownloadFile_after_create filepath url env w)

theorem Retry_after_create (filepath url : GoString) (a : AttemptEnv)
    (more : List AttemptEnv) (w : World) :
    TraceAdds (Event.isAttemptEvent filepath url) (w.log (.create (tmpName filepath)))
      (Retry (DownloadFile filepath url) a more w).1 := by
  have hfirst := DownloadFile_after_create filepath url a w
  rw [Retry_eq]
  rcases ha : DownloadFile filepath url a w with ⟨wa, _ | e⟩
  · rw [ha] at hfirst
    exact hfirst
  · rw [ha] at hfirst
    cases more with
    | nil => exact hfirst
    | cons b rest =>
      exact hfirst.addsTrans (Retry_adds _ _ (DownloadFile_attempt_events filepath url)
        b rest wa)

theorem isAttemptEvent_ne_finished (filepath url : GoString) (e : Event)
    (h : Event.isAttemptEvent filepath url e) : e ≠ downloadFinished := by
  cases e <;> simp [Event.isAttemptEvent, downloadFinished] at h ⊢
  rw [h]
  decide

theorem DownloadFile_adds (filepath url : GoString) (env : AttemptEnv) (w : World) :
    TraceAdds (fun e => e ≠ downloadFinished) w (DownloadFile filepath url env w).1 :=
  (DownloadFile_attempt_events filepath url env w).addsMono
    (isAttemptEvent_ne_finished filepath url)

theorem RunLoop_cons (addr : GoString) (statOther : Nat → Bool)
    (retries : Nat → RetryEnv) (k : Nat) (url : GoString) (rest : List GoString)
    (w : World) :
    RunLoop addr statOther retries k (url :: rest) w =
      if w.fs.isNotExist (statOther k) (destination url) then
        match Retry (DownloadFile (destination url) (sourceURL addr url))
            (retries k).first (retries k).more (w.log (.stat (destination url))) with
        | (w1, some err) => (w1, some err)
        | (w1, none) => RunLoop addr statOther retries (k + 1) rest w1
      else RunLoop addr statOther retries (k + 1) rest (w.log (.stat (destination url))) := by
  rw [RunLoop]
  rfl

theorem RunLoop_append (addr : GoString) (statOther : Nat → Bool)
    (retries : Nat → RetryEnv) (k : Nat) (pre post : List GoString) (w : World) :
    RunLoop addr statOther retries k (pre ++ post) w =
      match RunLoop addr statOther retries k pre w with
      | (w1, none) => RunLoop addr statOther retries (k + pre.length) post w1
      | (w1, some err) => (w1, some err) := by
  induction pre generalizing k w with
  | nil => simp [RunLoop]
  | cons u us ih =>
    have hk : k + (us.length + 1) = k + 1 + us.length := by omega
    rw [List.cons_append, RunLoop_cons, RunLoop_cons, List.length_cons, hk]
    split
    · split
      · rfl
      · rw [ih]
    · rw [ih]

theorem isNotExist_of_bound (fs : FS) (other : Bool) (p : GoString)
    (h : (fs p).isSome) : fs.isNotExist other p = false := by
  cases hd : fs p with
  | none => simp [hd] at h
  | some n => simp [FS.isNotExist, hd]

theorem RunLoop_skip (addr : GoString) (statOther : Nat → Bool)
    (retries : Nat → RetryEnv) (k : Nat) (url : GoString) (rest : List GoString)
    (w : World) (h : w.fs.isNotExist (statOther k) (destination url) = false) :
    RunLoop addr statOther retries k (url :: rest) w
      = RunLoop addr statOther retries (k + 1) rest (w.log (.stat (destination url))) := by
  rw [RunLoop_cons, h]
  simp

theorem RunLoop_present (addr : GoString) (statOther : Nat → Bool)
    (retries : Nat → RetryEnv) (k : Nat) (url : GoString) (rest : List GoString)
    (w : World) (h : (w.fs (destination url)).isSome) :
    RunLoop addr statOther retries k (url :: rest) w
      = RunLoop addr statOther retries (k + 1) rest (w.log (.stat (destination url))) :=
  RunLoop_skip addr statOther retries k url rest w (isNotExist_of_bound _ _ _ h)

/-- C2: when the loop reaches a URL whose destination exists, the whole
iteration is the one `os.Stat` call: no GET, create, write or rename is
made for it, the filesystem stays as it is, and the loop goes on with the
next URL. -/
theorem run_skips_existing_destination (addr : GoString) (statOther : Nat → Bool)
    (retries : Nat → RetryEnv)
    (pre post : List GoString) (url : GoString) (w w1 : World)
    (hpre : RunLoop addr statOther retries 0 pre w = (w1, none))
    (hex : (w1.fs (destination url)).isSome) :
    RunLoop addr statOther retries pre.length [url] w1
        = (w1.log (.stat (destination url)), none)
      ∧ (w1.log (.stat (destination url))).fs = w1.fs
      ∧ httpGets (w1.log (.stat (destination url))).trace = httpGets w1.trace
      ∧ RunLoop addr statOther retries 0 (pre ++ url :: post) w
        = RunLoop addr statOther retries (pre.length + 1) post
            (w1.log (.stat (destination url))) := by
  refine ⟨?_, rfl, ?_, ?_⟩
  · rw [RunLoop_present addr statOther retries _ url [] w1 hex]
    simp [RunLoop]
  · simp [httpGets, World.log, List.filterMap_append]
  · rw [RunLoop_append, hpre]
    simp only [Nat.zero_add]
    exact RunLoop_present addr statOther retries _ url post w1 hex

/-! ## What the download loop prints -/

theorem RunLoop_adds (addr : GoString) (statOther : Nat → Bool)
    (retries : Nat → RetryEnv) (k : Nat) (urls : List GoString) (w : World) :
    TraceAdds (fun e => e ≠ downloadFinished) w
      (RunLoop addr statOther retries k urls w).1 := by
  induction urls generalizing k w with
  | nil => exact TraceAdds.addsRefl _ _
  | cons u us ih =>
    rw [RunLoop_cons]
    have hstat : TraceAdds (fun e => e ≠ downloadFinished) w (w.log (.stat (destination u))) :=
      TraceAdds.addsLog _ _ (by simp [downloadFinished])
    split
    · have hre := Retry_adds (fun e => e ≠ downloadFinished)
        (DownloadFile (destination u) (sourceURL addr u))
        (DownloadFile_adds (destination u) (sourceURL addr u))
        (retries k).first (retries k).more (w.log (.stat (destination u)))
      rcases hr : Retry (DownloadFile (destination u) (sourceURL addr u))
        (retries k).first (retries k).more (w.log (.stat (destination u))) with ⟨w1, _ | e⟩
      · rw [hr] at hre
        exact (hstat.addsTrans hre).addsTrans (ih _ _)
      · rw [hr] at hre
        exact hstat.addsTrans hre
    · exact hstat.addsTrans (ih _ _)

theorem loopStart_adds (addr : GoString) (env : RunEnv) (w : World) :
    TraceAdds (fun e => e ≠ downloadFinished) w (loopStart addr env w) := by
  have h3 : TraceAdds (fun e => e ≠ downloadFinished) w
      (((w.log (.stdout "Checking for charts...\n".toList)).log
        (.httpGet (addr ++ "/api/charts".toList))).log
        (.stdout "Download Started\n".toList)) :=
    ((TraceAdds.addsLog _ _ (by decide)).addsTrans
      (TraceAdds.addsLog _ _ (by simp [downloadFinished]))).addsTrans
      (TraceAdds.addsLog _ _ (by decide))
  refine h3.addsTrans ?_
  unfold loopStart ensureChartsDir
  simp only []
  split
  · cases env.mkdirFails with
    | true =>
      exact (TraceAdds.addsLog _ _ (by simp [downloadFinished])).addsTrans
        (TraceAdds.addsLog _ _ (by simp [downloadFinished]))
    | false =>
      exact ((TraceAdds.addsLog _ _ (by simp [downloadFinished])).addsTrans
        (TraceAdds.addsLog _ _ (by simp [downloadFinished]))).addsTrans
        (TraceAdds.addsSetFS _ _)
  · exact TraceAdds.addsLog _ _ (by simp [downloadFinished])

theorem Run_reaches_loop (addr : GoString) (env : RunEnv) (w : World) (c : Bytes)
    (data : Manifest) (haddr : addr ≠ []) (hm : env.manifest = .body c)
    (hu : env.unmarshal c = some data) :
    Run addr env w =
      match RunLoop addr env.statOther env.retries 0 (extractURLs data)
          (loopStart addr env w) with
      | (w1, some _) => (w1, .panic)
      | (w1, none) => (w1.log downloadFinished, .returned) := by
  unfold Run
  simp only [haddr, if_false, hm, hu]
  rfl

/-! ## Aborting and finishing -/

theorem RunLoop_missing (addr : GoString) (statOther : Nat → Bool)
    (retries : Nat → RetryEnv) (k : Nat) (url : GoString) (rest : List GoString)
    (w : World) (hmiss : w.fs.isNotExist (statOther k) (destination url) = true) :
    RunLoop addr statOther retries k (url :: rest) w =
      match Retry (DownloadFile (destination url) (sourceURL addr url))
          (retries k).first (retries k).more (w.log (.stat (destination url))) with
      | (w1, some err) => (w1, some err)
      | (w1, none) => RunLoop addr statOther retries (k + 1) rest w1 := by
  rw [RunLoop_cons, hmiss]
  simp

theorem RunLoop_abort (addr : GoString) (statOther : Nat → Bool)
    (retries : Nat → RetryEnv)
    (pre post : List GoString) (url : GoString) (w w1 w2 : World) (err : GoError)
    (hpre : RunLoop addr statOther retries 0 pre w = (w1, none))
    (hmiss : w1.fs.isNotExist (statOther pre.length) (destination url) = true)
    (hfail : Retry (DownloadFile (destination url) (sourceURL addr url))
      (retries pre.length).first (retries pre.length).more
      (w1.log (.stat (destination url))) = (w2, some err)) :
    RunLoop addr statOther retries 0 (pre ++ url :: post) w = (w2, some err) := by
  rw [RunLoop_append, hpre]
  simp only [Nat.zero_add]
  rw [RunLoop_missing addr statOther retries _ url post w1 hmiss, hfail]

theorem RunLoop_proceed (addr : GoString) (statOther : Nat → Bool)
    (retries : Nat → RetryEnv)
    (pre post : List GoString) (url : GoString) (w w1 w2 : World)
    (hpre : RunLoop addr statOther retries 0 pre w = (w1, none))
    (hmiss : w1.fs.isNotExist (statOther pre.length) (destination url) = true)
    (hok : Retry (DownloadFile (destination url) (sourceURL addr url))
      (retries pre.length).first (retries pre.length).more
      (w1.log (.stat (destination url))) = (w2, none)) :
    RunLoop addr statOther retries 0 (pre ++ url :: post) w
      = RunLoop addr statOther retries (pre.length + 1) post w2 := by
  rw [RunLoop_append, hpre]
  simp only [Nat.zero_add]
  rw [RunLoop_missing addr statOther retries _ url post w1 hmiss, hok]

theorem RunLoop_done (addr : GoString) (statOther : Nat → Bool)
    (retries : Nat → RetryEnv) (urls : List GoString) (w w1 : World)
    (h : RunLoop addr statOther retries 0 urls w = (w1, none)) :
    EveryMissingDownloaded addr statOther retries urls w := by
  intro pre url post hsplit
  subst hsplit
  rw [RunLoop_append] at h
  rcases hpre : RunLoop addr statOther retries 0 pre w with ⟨wp, _ | e⟩
  · refine ⟨wp, rfl, fun hmiss => ?_⟩
    rw [hpre] at h
    simp only [Nat.zero_add] at h
    rw [RunLoop_missing addr statOther retries _ url post wp hmiss] at h
    rcases hr : Retry (DownloadFile (destination url) (sourceURL addr url))
      (retries pre.length).first (retries pre.length).more
      (wp.log (.stat (destination url))) with ⟨w2, _ | e⟩
    · refine ⟨w2, rfl, Retry_downloaded _ _ _ _ _ w2 hr, ?_⟩
      rw [RunLoop_proceed addr statOther retries pre [] url w wp w2 hpre hmiss hr]
      rfl
    · rw [hr] at h
      simp at h
  · rw [hpre] at h
    simp at h

/-- C6: when the retry loop of a missing artifact returns an error, `Run`
panics in the world that retry loop left: nothing is checked, attempted or
requested for the URLs after it and "Download Finished" is not printed.
When an attempt for the artifact succeeds, the retry loop returns in the
world that attempt left, so no further attempt is made, and the loop over
the URLs goes on with the next one. -/
theorem retry_exhaustion_aborts_run (addr : GoString) (env : RunEnv) (w w1 : World)
    (c : Bytes) (data : Manifest) (pre post : List GoString) (url : GoString)
    (haddr : addr ≠ []) (hm : env.manifest = .body c) (hu : env.unmarshal c = some data)
    (hurls : extractURLs data = pre ++ url :: post)
    (hpre : RunLoop addr env.statOther env.retries 0 pre (loopStart addr env w) = (w1, none))
    (hmiss : w1.fs.isNotExist (env.statOther pre.length) (destination url) = true) :
    (∀ w2 err,
        Retry (DownloadFile (destination url) (sourceURL addr url))
          (env.retries pre.length).first (env.retries pre.length).more
          (w1.log (.stat (destination url))) = (w2, some err) →
        Run addr env w = (w2, .panic) ∧
          (downloadFinished ∉ w.trace → downloadFinished ∉ (Run addr env w).1.trace))
      ∧ (∀ w2,
        DownloadFile (destination url) (sourceURL addr url) (env.retries pre.length).first
          (w1.log (.stat (destination url))) = (w2, none) →
        Retry (DownloadFile (destination url) (sourceURL addr url))
            (env.retries pre.length).first (env.retries pre.length).more
            (w1.log (.stat (destination url))) = (w2, none) ∧
          RunLoop addr env.statOther env.retries 0 (pre ++ url :: post) (loopStart addr env w)
            = RunLoop addr env.statOther env.retries (pre.length + 1) post w2)
      ∧ (∀ failing b unused wf err w2,
        (env.retries pre.length).more = failing ++ b :: unused →
        Retry (DownloadFile (destination url) (sourceURL addr url))
          (env.retries pre.length).first failing
          (w1.log (.stat (destination url))) = (wf, some err) →
        DownloadFile (destination url) (sourceURL addr url) b wf = (w2, none) →
        Retry (DownloadFile (destination url) (sourceURL addr url))
            (env.retries pre.length).first (env.retries pre.length).more
            (w1.log (.stat (destination url))) = (w2, none) ∧
          RunLoop addr env.statOther env.retries 0 (pre ++ url :: post) (loopStart addr env w)
            = RunLoop addr env.statOther env.retries (pre.length + 1) post w2) := by
  refine ⟨?_, ?_, ?_⟩
  · intro w2 err hfail
    have hloop := RunLoop_abort addr env.statOther env.retries pre post url _ w1 w2 err
      hpre hmiss hfail
    have hrun : Run addr env w = (w2, .panic) := by
      rw [Run_reaches_loop addr env w c data haddr hm hu, hurls, hloop]
    refine ⟨hrun, fun hw => ?_⟩
    have hadds := (loopStart_adds addr env w).addsTrans
      (RunLoop_adds addr env.statOther env.retries 0 (pre ++ url :: post)
        (loopStart addr env w))
    rw [hloop] at hadds
    obtain ⟨added, htrace, hadded⟩ := hadds
    rw [hrun]
    simp only [] at htrace ⊢
    rw [htrace]
    intro hmem
    rcases List.mem_append.1 hmem with h | h
    · exact hw h
    · exact hadded _ h rfl
  · intro w2 hok
    have hre := Retry_first_success _ _ (env.retries pre.length).more _ _ hok
    exact ⟨hre, RunLoop_proceed addr env.statOther env.retries pre post url _ w1 w2
      hpre hmiss hre⟩
  · intro failing b unused wf err w2 hmore hfail hok
    have hre : Retry (DownloadFile (destination url) (sourceURL addr url))
        (env.retries pre.length).first (env.retries pre.length).more
        (w1.log (.stat (destination url))) = (w2, none) := by
      rw [hmore]
      exact Retry_later_success _ _ b failing unused _ wf w2 err hfail hok
    exact ⟨hre, RunLoop_proceed addr env.statOther env.retries pre post url _ w1 w2
      hpre hmiss hre⟩

/-- C7 (amended): `Run` ends the process with status 1 through `os.Exit(1)`
when the URL is empty (having only printed the usage message) and when the
manifest GET or the body read fails; when the manifest body cannot be
decoded and when the retry loop of a file returns an error it panics, which
ends the process with status 2; it ends with status 0 only when every
artifact that the check of line 136 reported as not existing when the loop
reached it was downloaded, the body of a complete attempt being at its
destination when its retry loop returned. -/
theorem run_exit_status (addr : GoString) (env : RunEnv) (w : World) :
    (addr = [] → Run addr env w = (w.log (.stdout usageMessage), .exit 1) ∧
        exitStatus (Run addr env w).2 = 1)
      ∧ (addr ≠ [] → (env.manifest = .getError ∨ env.manifest = .readError) →
        exitStatus (Run addr env w).2 = 1)
      ∧ (addr ≠ [] → ∀ c, env.manifest = .body c → env.unmarshal c = none →
        (Run addr env w).2 = .panic ∧ exitStatus (Run addr env w).2 = 2)
      ∧ (addr ≠ [] → ∀ c data pre url post w1 w2 err, env.manifest = .body c →
        env.unmarshal c = some data → extractURLs data = pre ++ url :: post →
        RunLoop addr env.statOther env.retries 0 pre (loopStart addr env w) = (w1, none) →
        w1.fs.isNotExist (env.statOther pre.length) (destination url) = true →
        Retry (DownloadFile (destination url) (sourceURL addr url))
          (env.retries pre.length).first (env.retries pre.length).more
          (w1.log (.stat (destination url))) = (w2, some err) →
        (Run addr env w).2 = .panic ∧ exitStatus (Run addr env w).2 = 2)
      ∧ (exitStatus (Run addr env w).2 = 0 →
        ∃ c data, addr ≠ [] ∧ env.manifest = .body c ∧ env.unmarshal c = some data ∧
          EveryMissingDownloaded addr env.statOther env.retries (extractURLs data)
            (loopStart addr env w)) := by
  refine ⟨?_, ?_, ?_, ?_, ?_⟩
  · intro h
    simp [Run, h, exitStatus]
  · intro h hm
    rcases hm with hm | hm <;> simp [Run, h, hm, exitStatus]
  · intro h c hm hu
    simp [Run, h, hm, hu, exitStatus]
  · intro h c data pre url post w1 w2 err hm hu hurls hpre hmiss hfail
    have hloop := RunLoop_abort addr env.statOther env.retries pre post url _ w1 w2 err
      hpre hmiss hfail
    rw [Run_reaches_loop addr env w c data h hm hu, hurls, hloop]
    simp [exitStatus]
  · intro h0
    by_cases haddr : addr = []
    · simp [Run, haddr, exitStatus] at h0
    · cases hm : env.manifest with
      | getError => simp [Run, haddr, hm, exitStatus] at h0
      | readError => simp [Run, haddr, hm, exitStatus] at h0
      | body c =>
        cases hu : env.unmarshal c with
        | none => simp [Run, haddr, hm, hu, exitStatus] at h0
        | some data =>
          refine ⟨c, data, haddr, rfl, hu, ?_⟩
          rw [Run_reaches_loop addr env w c data haddr hm hu] at h0
          rcases hl : RunLoop addr env.statOther env.retries 0 (extractURLs data)
            (loopStart addr env w) with ⟨wl, _ | e⟩
          · exact RunLoop_done addr env.statOther env.retries _ _ wl hl
          · rw [hl] at h0
            simp [exitStatus] at h0

/-! ## Where an artifact lands -/

theorem dropWhile_none (f : Char → Bool) (l : List Char) (h : ∀ x ∈ l, f x = false) :
    l.dropWhile f = l := by
  cases l with
  | nil => rfl
  | cons x xs => simp [List.dropWhile, h x (List.mem_cons_self _ _)]

theorem takeWhile_all (f : Char → Bool) (l : List Char) (h : ∀ x ∈ l, f x = true) :
    l.takeWhile f = l := by
  induction l with
  | nil => rfl
  | cons x xs ih =>
    have hx := h x (List.mem_cons_self _ _)
    have hxs := ih (fun y hy => h y (List.mem_cons_of_mem _ hy))
    simp [List.takeWhile, hx, hxs]

theorem basename_of_simple (p : GoString) (hne : p ≠ []) (hs : '/' ∉ p) :
    basename p = p := by
  have hd : p.reverse.dropWhile (fun c => c == '/') = p.reverse := by
    apply dropWhile_none
    intro x hx
    have hxp : x ∈ p := List.mem_reverse.1 hx
    simp only [beq_eq_false_iff_ne, ne_eq]
    intro hx2
    exact hs (hx2 ▸ hxp)
  have ht : p.reverse.takeWhile (fun c => c != '/') = p.reverse := by
    apply takeWhile_all
    intro x hx
    have hxp : x ∈ p := List.mem_reverse.1 hx
    simp only [bne_iff_ne, ne_eq]
    intro hx2
    exact hs (hx2 ▸ hxp)
  unfold basename
  simp only [hne, if_false, hd, ht, List.reverse_reverse]

theorem TrimPrefix_append (p rest : GoString) : TrimPrefix (p ++ rest) p = rest := by
  have h : p.isPrefixOf (p ++ rest) = true :=
    List.isPrefixOf_iff_prefix.2 (List.prefix_append p rest)
  simp [TrimPrefix, h]

theorem TrimPrefix_other (s p : GoString) (h : p.isPrefixOf s = false) :
    TrimPrefix s p = s := by
  simp [TrimPrefix, h]

theorem DownloadFile_elsewhere (filepath url q : GoString) (env : AttemptEnv) (w : World)
    (hq : q ≠ filepath) (hqt : q ≠ tmpName filepath) :
    (DownloadFile filepath url env w).1.fs q = w.fs q := by
  rcases DownloadFile_cases filepath url env w with
    ⟨_, ⟨hfs, _⟩, _⟩ | ⟨_, _, _, body, w1, _, _, ⟨hfs, _⟩, _, hw⟩
  · exact hfs q hqt
  · rw [hw]
    simp [World.setFS, FS.rename, hq, hqt, hfs q hqt]

theorem RunLoop_single (addr : GoString) (statOther : Nat → Bool)
    (retries : Nat → RetryEnv) (k : Nat) (url : GoString) (w : World)
    (hmiss : w.fs.isNotExist (statOther k) (destination url) = true) :
    RunLoop addr statOther retries k [url] w
      = ((Retry (DownloadFile (destination url) (sourceURL addr url))
          (retries k).first (retries k).more (w.log (.stat (destination url)))).1,
        (Retry (DownloadFile (destination url) (sourceURL addr url))
          (retries k).first (retries k).more (w.log (.stat (destination url)))).2) := by
  rw [RunLoop_missing addr statOther retries k url [] w hmiss]
  rcases Retry (DownloadFile (destination url) (sourceURL addr url))
    (retries k).first (retries k).more (w.log (.stat (destination url))) with ⟨w1, _ | e⟩
  · simp [RunLoop]
  · rfl

/-- C8 (amended): for a URL `p` of the extracted list the path `Run` checks
and downloads to is "charts/" followed by all of `p` after one leading
"charts/" is stripped (all of `p` when it does not start with "charts/"),
not its basename. The iteration makes its `os.Stat` on that path, and every
further call it makes belongs to an attempt on it: a create of that path
followed by ".tmp", a write to that file, a rename of it to that path, or
a GET of the base URL, "/" and `p` unmodified; when the check reports the
path missing the first of these is the create, no other path changes, and
after a successful download the full body is at that path. When the
stripped path is not empty and has no slash, that path is "charts/"
followed by its basename. -/
theorem run_destination_and_source (addr : GoString) (statOther : Nat → Bool)
    (retries : Nat → RetryEnv) (k : Nat) (url : GoString) (w : World) :
    (∀ rest, url = "charts/".toList ++ rest → destination url = "charts/".toList ++ rest)
      ∧ ("charts/".toList.isPrefixOf url = false →
          destination url = "charts/".toList ++ url)
      ∧ (∃ added,
          (RunLoop addr statOther retries k [url] w).1.trace
            = w.trace ++ .stat (destination url) :: added ∧
          (∀ e ∈ added,
            Event.isAttemptEvent (destination url) (addr ++ "/".toList ++ url) e) ∧
          (w.fs.isNotExist (statOther k) (destination url) = true →
            ∃ rest, added = .create (destination url ++ ".tmp".toList) :: rest) ∧
          (w.fs.isNotExist (statOther k) (destination url) = false → added = []))
      ∧ (∀ q, q ≠ destination url → q ≠ destination url ++ ".tmp".toList →
          (RunLoop addr statOther retries k [url] w).1.fs q = w.fs q)
      ∧ (w.fs.isNotExist (statOther k) (destination url) = true →
          (RunLoop addr statOther retries k [url] w).2 = none →
          DownloadedAt (RunLoop addr statOther retries k [url] w).1 (destination url)
            ((retries k).first :: (retries k).more))
      ∧ (TrimPrefix url "charts/".toList ≠ [] → '/' ∉ TrimPrefix url "charts/".toList →
          destination url
            = "charts/".toList ++ basename (TrimPrefix url "charts/".toList)) := by
  refine ⟨?_, ?_, ?_, ?_, ?_, ?_⟩
  · intro rest hrest
    rw [hrest]
    unfold destination
    rw [TrimPrefix_append]
  · intro hno
    unfold destination
    rw [TrimPrefix_other _ _ hno]
  · cases hmiss : w.fs.isNotExist (statOther k) (destination url) with
    | false =>
      refine ⟨[], ?_, by simp, by simp, fun _ => rfl⟩
      rw [RunLoop_skip addr statOther retries k url [] w hmiss]
      simp [RunLoop, World.log]
    | true =>
      obtain ⟨added, htrace, hadded⟩ := Retry_after_create (destination url)
        (sourceURL addr url) (retries k).first (retries k).more
        (w.log (.stat (destination url)))
      refine ⟨.create (tmpName (destination url)) :: added, ?_, ?_, fun _ => ⟨added, rfl⟩,
        fun h => by simp at h⟩
      · rw [RunLoop_single addr statOther retries k url w hmiss]
        simp only [htrace]
        simp [World.log]
      · intro e he
        rcases List.mem_cons.1 he with h | h
        · rw [h]
          exact rfl
        · exact hadded e h
  · intro q hq hqt
    cases hmiss : w.fs.isNotExist (statOther k) (destination url) with
    | false =>
      rw [RunLoop_skip addr statOther retries k url [] w hmiss]
      simp [RunLoop, World.log]
    | true =>
      rw [RunLoop_single addr statOther retries k url w hmiss]
      exact Retry_keeps (fun x => x.fs q = w.fs q)
        (DownloadFile (destination url) (sourceURL addr url))
        (fun a x hx => by
          have := DownloadFile_elsewhere (destination url) (sourceURL addr url) q a x hq hqt
          simp only [] at hx ⊢
          rw [this, hx])
        (retries k).first (retries k).more (w.log (.stat (destination url))) rfl
  · intro hmiss hnone
    rw [RunLoop_single addr statOther retries k url w hmiss] at hnone ⊢
    simp only [] at hnone ⊢
    exact Retry_downloaded (destination url) (sourceURL addr url) _ _ _ _
      (Prod.ext rfl hnone)
  · intro hne hs
    unfold destination
    rw [basename_of_simple _ hne hs]

/-! ## Re-running without temporary-name collisions -/

theorem isNotExist_false_iff (fs : FS) (other : Bool) (p : GoString) :
    fs.isNotExist other p = false ↔
      (fs p).isSome ∨ (∃ a ∈ ancestors p, fs.isFile a = true) ∨ other = true := by
  unfold FS.isNotExist FS.underRegularFile
  cases hp : fs p <;> cases other <;> simp [List.any_eq_true]

theorem DownloadFile_keeps (filepath url q : GoString) (env : AttemptEnv) (w : World)
    (hq : q ≠ tmpName filepath) (h : (w.fs q).isSome) :
    ((DownloadFile filepath url env w).1.fs q).isSome := by
  rcases DownloadFile_cases filepath url env w with
    ⟨_, ⟨hfs, _⟩, _⟩ | ⟨_, _, _, body, w1, _, _, ⟨hfs, _⟩, htmp, hw⟩
  · rw [hfs q hq]
    exact h
  · rw [hw]
    by_cases hqf : q = filepath
    · simp [World.setFS, FS.rename, hqf, htmp]
    · simp [World.setFS, FS.rename, hqf, hq, hfs q hq, h]

theorem DownloadFile_keeps_file (filepath url q : GoString) (env : AttemptEnv) (w : World)
    (hq : q ≠ tmpName filepath) (h : w.fs.isFile q = true) :
    (DownloadFile filepath url env w).1.fs.isFile q = true := by
  rcases DownloadFile_cases filepath url env w with
    ⟨_, ⟨hfs, _⟩, _⟩ | ⟨_, _, _, body, w1, _, _, ⟨hfs, _⟩, htmp, hw⟩
  · unfold FS.isFile at h ⊢
    rw [hfs q hq]
    exact h
  · rw [hw]
    by_cases hqf : q = filepath
    · simp [World.setFS, FS.rename, FS.isFile, hqf, htmp]
    · unfold FS.isFile at h ⊢
      simp only [World.setFS, FS.rename, hqf, hq, if_false, hfs q hq]
      exact h

theorem DownloadFile_keeps_skip (filepath url d : GoString) (other : Bool)
    (env : AttemptEnv) (w : World) (hd : d ≠ tmpName filepath)
    (ha : ∀ a ∈ ancestors d, a ≠ tmpName filepath)
    (h : w.fs.isNotExist other d = false) :
    (DownloadFile filepath url env w).1.fs.isNotExist other d = false := by
  rw [isNotExist_false_iff] at h ⊢
  rcases h with h | ⟨a, hmem, hfile⟩ | h
  · exact Or.inl (DownloadFile_keeps filepath url d env w hd h)
  · exact Or.inr (Or.inl ⟨a, hmem,
      DownloadFile_keeps_file filepath url a env w (ha a hmem) hfile⟩)
  · exact Or.inr (Or.inr h)

theorem RunLoop_keeps (P : World → Prop) (addr : GoString) (statOther : Nat → Bool)
    (retries : Nat → RetryEnv) (k : Nat) (urls : List GoString) (w : World)
    (hlog : ∀ x e, P x → P (x.log e))
    (hdl : ∀ u ∈ urls, ∀ a x, P x →
      P (DownloadFile (destination u) (sourceURL addr u) a x).1)
    (h : P w) : P (RunLoop addr statOther retries k urls w).1 := by
  induction urls generalizing k w with
  | nil => exact h
  | cons u us ih =>
    have hdls : ∀ v ∈ us, ∀ a x, P x →
        P (DownloadFile (destination v) (sourceURL addr v) a x).1 :=
      fun v hv => hdl v (List.mem_cons_of_mem _ hv)
    rw [RunLoop_cons]
    split
    · have hre := Retry_keeps P (DownloadFile (destination u) (sourceURL addr u))
        (hdl u (List.mem_cons_self _ _)) (retries k).first (retries k).more
        (w.log (.stat (destination u))) (hlog _ _ h)
      rcases hr : Retry (DownloadFile (destination u) (sourceURL addr u))
        (retries k).first (retries k).more (w.log (.stat (destination u))) with ⟨w1, _ | e⟩
      · rw [hr] at hre
        exact ih _ _ hdls hre
      · rw [hr] at hre
        exact hre
    · exact ih _ _ hdls (hlog _ _ h)

theorem RunLoop_leaves_skipped (addr : GoString) (statOther : Nat → Bool)
    (retries : Nat → RetryEnv) (k : Nat) (urls : List GoString) (w w1 : World)
    (hno : NoTmpCollision urls)
    (h : RunLoop addr statOther retries k urls w = (w1, none)) :
    AllSkipped statOther w1.fs k urls := by
  induction urls generalizing k w with
  | nil => trivial
  | cons u us ih =>
    have hnos : NoTmpCollision us :=
      fun a ha b hb => hno a (List.mem_cons_of_mem _ ha) b (List.mem_cons_of_mem _ hb)
    have key : ∀ w2 : World, w2.fs.isNotExist (statOther k) (destination u) = false →
        RunLoop addr statOther retries (k + 1) us w2 = (w1, none) →
        AllSkipped statOther w1.fs k (u :: us) := by
      intro w2 hw2 hrest
      refine ⟨?_, ih (k + 1) w2 hnos hrest⟩
      have := RunLoop_keeps
        (fun x => x.fs.isNotExist (statOther k) (destination u) = false)
        addr statOther retries (k + 1) us w2 (fun x e hx => hx)
        (fun v hv a x hx =>
          DownloadFile_keeps_skip (destination v) (sourceURL addr v) (destination u)
            (statOther k) a x
            (hno u (List.mem_cons_self _ _) v (List.mem_cons_of_mem _ hv)).1
            (hno u (List.mem_cons_self _ _) v (List.mem_cons_of_mem _ hv)).2 hx)
        hw2
      rw [hrest] at this
      exact this
    rw [RunLoop_cons] at h
    split at h
    · rcases hr : Retry (DownloadFile (destination u) (sourceURL addr u))
        (retries k).first (retries k).more (w.log (.stat (destination u))) with ⟨w2, _ | e⟩
      · rw [hr] at h
        obtain ⟨b, _, body, _, _, hfs⟩ := Retry_downloaded _ _ _ _ _ w2 hr
        exact key w2 (isNotExist_of_bound _ _ _ (by simp [hfs])) h
      · rw [hr] at h
        simp at h
    · rename_i hex
      exact key _ (by simpa using hex) h

theorem RunLoop_all_skipped (addr : GoString) (statOther : Nat → Bool)
    (retries : Nat → RetryEnv) (k : Nat) (urls : List GoString) (w : World)
    (h : AllSkipped statOther w.fs k urls) :
    RunLoop addr statOther retries k urls w
      = ({ w with trace := w.trace ++ urls.map (fun u => .stat (destination u)) }, none) := by
  induction urls generalizing k w with
  | nil => simp [RunLoop]
  | cons u us ih =>
    rw [RunLoop_skip addr statOther retries k u us w h.1,
      ih (k + 1) (w.log (.stat (destination u))) h.2]
    simp [World.log]

/-- When no destination of the list, and no ancestor of one, is the
temporary name of another, a loop that ran through leaves every URL such
that the check of line 136 takes it as present, and a second loop on those
files with the same answers of `os.Stat` only makes its `os.Stat` calls. -/
theorem second_loop_only_stats_without_collision (addr : GoString)
    (statOther : Nat → Bool) (retries again : Nat → RetryEnv) (urls : List GoString)
    (w w1 w0 : World)
    (hno : NoTmpCollision urls)
    (hfirst : RunLoop addr statOther retries 0 urls w = (w1, none))
    (hfs : w0.fs = w1.fs) :
    RunLoop addr statOther again 0 urls w0
      = ({ w0 with trace := w0.trace ++ urls.map (fun u => .stat (destination u)) }, none) := by
  apply RunLoop_all_skipped
  rw [hfs]
  exact RunLoop_leaves_skipped addr statOther retries 0 urls w w1 hno hfirst

/-! ## Concrete runs -/

/-- C1 (witness): with the two chart names visited in the opposite order
the extracted list starts with the URL of the second name. -/
theorem extractURLs_concat_in_range_order_witness :
    twoNameManifest.reverse.Perm twoNameManifest ∧
      extractURLs twoNameManifest.reverse
        = ["charts/etcd-1.0.0.tgz".toList, "charts/dex-0.1.1.tgz".toList,
            "charts/dex-0.1.1.prov".toList, "charts/dex-0.1.0.tgz".toList] ∧
      (extractURLs twoNameManifest.reverse).Perm (allURLs twoNameManifest) ∧
      (extractURLs twoNameManifest.reverse).length = 4 :=
  ⟨List.reverse_perm _,
    (extractURLs_concat_in_range_order twoNameManifest twoNameManifest.reverse
      (List.reverse_perm _)).1.trans (by decide),
    (extractURLs_concat_in_range_order twoNameManifest twoNameManifest.reverse
      (List.reverse_perm _)).2.1,
    (extractURLs_concat_in_range_order twoNameManifest twoNameManifest.reverse
      (List.reverse_perm _)).2.2.trans (by decide)⟩

/-- C2 (witness): the spec's scenario with charts/mychart-1.0.0.tgz present;
the loop makes one `os.Stat` call and the run no artifact GET. -/
theorem run_skips_existing_destination_witness :
    (mychartPresent (destination "charts/mychart-1.0.0.tgz".toList)).isSome ∧
      RunLoop exampleAddress (servingEnv mychartManifest).statOther
          (servingEnv mychartManifest).retries 0
          ["charts/mychart-1.0.0.tgz".toList] (World.init mychartPresent)
        = ((World.init mychartPresent).log (.stat "charts/mychart-1.0.0.tgz".toList), none) ∧
      artifactGets exampleAddress
          (Run exampleAddress (servingEnv mychartManifest) (World.init mychartPresent)).1.trace
        = [] :=
  ⟨by decide,
    (run_skips_existing_destination exampleAddress (servingEnv mychartManifest).statOther
      (servingEnv mychartManifest).retries
      [] [] "charts/mychart-1.0.0.tgz".toList (World.init mychartPresent)
      (World.init mychartPresent) rfl (by decide)).1,
    by decide⟩

/-- C3 (witness): a complete download over an older file at the destination
leaves the new body there and no temporary file, and all snapshots before
the rename still show the older file. -/
theorem downloadFile_atomic_witness :
    (DownloadFile "charts/a".toList "http://h/charts/a".toList (okAttempt [[1], [2, 3]])
        (World.init olderDownload)).1.fs "charts/a".toList = some (.file [1, 2, 3]) ∧
      (DownloadFile "charts/a".toList "http://h/charts/a".toList (okAttempt [[1], [2, 3]])
        (World.init olderDownload)).1.fs "charts/a.tmp".toList = none ∧
      ((DownloadFile "charts/a".toList "http://h/charts/a".toList (okAttempt [[1], [2, 3]])
        (World.init olderDownload)).1.past.map (fun s => s "charts/a".toList))
        = [some (.file [9, 9, 9]), some (.file [9, 9, 9]), some (.file [9, 9, 9]),
            some (.file [9, 9, 9])] ∧
      (DownloadFile "charts/a".toList "http://h/charts/a".toList (brokenAttempt [[1]])
        (World.init olderDownload)).1.fs "charts/a".toList = some (.file [9, 9, 9]) :=
  ⟨((downloadFile_atomic "charts/a".toList "http://h/charts/a".toList (okAttempt [[1], [2, 3]])
      (World.init olderDownload)).1 _ rfl rfl rfl rfl).2.1,
    by decide, by decide,
    (downloadFile_atomic "charts/a".toList "http://h/charts/a".toList (brokenAttempt [[1]])
      (World.init olderDownload)).2.2 (by decide)⟩

/-- C6 (witness): the server refuses the second of three artifacts twice;
`Run` panics, has requested a and b (twice) but never c, and has not printed
"Download Finished". -/
theorem retry_exhaustion_aborts_run_witness :
    exampleAddress ≠ [] ∧
      beforeSecondRefused.fs.isNotExist (secondRefusedEnv.statOther 1)
        (destination "charts/b.tgz".toList) = true ∧
      (Run exampleAddress secondRefusedEnv (World.init FS.empty)).2 = .panic ∧
      artifactGets exampleAddress
          (Run exampleAddress secondRefusedEnv (World.init FS.empty)).1.trace
        = ["http://h/charts/a.tgz".toList, "http://h/charts/b.tgz".toList,
            "http://h/charts/b.tgz".toList] ∧
      Event.stat "charts/c.tgz".toList
        ∉ (Run exampleAddress secondRefusedEnv (World.init FS.empty)).1.trace ∧
      downloadFinished ∉ (Run exampleAddress secondRefusedEnv (World.init FS.empty)).1.trace :=
  ⟨by decide, by decide,
    congrArg Prod.snd
      (((retry_exhaustion_aborts_run exampleAddress secondRefusedEnv (World.init FS.empty)
        beforeSecondRefused [] _ ["charts/a.tgz".toList] ["charts/c.tgz".toList]
        "charts/b.tgz".toList (by decide) rfl rfl (by decide) (Prod.ext rfl (by decide))
        (by decide)).1 afterSecondRefused .getFailed (Prod.ext rfl (by decide))).1),
    by decide, by decide,
    ((retry_exhaustion_aborts_run exampleAddress secondRefusedEnv (World.init FS.empty)
        beforeSecondRefused [] _ ["charts/a.tgz".toList] ["charts/c.tgz".toList]
        "charts/b.tgz".toList (by decide) rfl rfl (by decide) (Prod.ext rfl (by decide))
        (by decide)).1 afterSecondRefused .getFailed (Prod.ext rfl (by decide))).2
      (by decide)⟩

/-- C7 (counterexample): a manifest body that does not decode, and a file
whose retry budget runs out, end the process with status 2, not 1. -/
theorem panic_exit_status_is_not_one :
    (Run exampleAddress garbledEnv (World.init FS.empty)).2 = .panic ∧
      exitStatus (Run exampleAddress garbledEnv (World.init FS.empty)).2 = 2 ∧
      exitStatus (Run exampleAddress garbledEnv (World.init FS.empty)).2 ≠ 1 ∧
      exitStatus (Run exampleAddress secondRefusedEnv (World.init FS.empty)).2 ≠ 1 := by
  decide

/-- C7 (witness): the empty URL gives the usage message and status 1 with no
request and no filesystem change; the serving run of the spec's scenario
from an empty directory gives status 0, and its one artifact, reported as
not existing, was downloaded: the served body is at its destination. -/
theorem run_exit_status_witness :
    ([] : GoString) = [] ∧
      exitStatus (Run [] garbledEnv (World.init FS.empty)).2 = 1 ∧
      (Run [] garbledEnv (World.init FS.empty)).1.trace = [.stdout usageMessage] ∧
      exitStatus (Run exampleAddress (servingEnv mychartManifest) (World.init FS.empty)).2 = 0 ∧
      (Run exampleAddress (servingEnv mychartManifest) (World.init FS.empty)).1.fs
          "charts/mychart-1.0.0.tgz".toList = some (.file [1, 2]) ∧
      (∃ c data, exampleAddress ≠ [] ∧ (servingEnv mychartManifest).manifest = .body c ∧
        (servingEnv mychartManifest).unmarshal c = some data ∧
        EveryMissingDownloaded exampleAddress (servingEnv mychartManifest).statOther
          (servingEnv mychartManifest).retries (extractURLs data)
          (loopStart exampleAddress (servingEnv mychartManifest) (World.init FS.empty))) :=
  ⟨rfl, ((run_exit_status [] garbledEnv (World.init FS.empty)).1 rfl).2,
    congrArg (fun r => r.1.trace)
      ((run_exit_status [] garbledEnv (World.init FS.empty)).1 rfl).1,
    by decide, by decide,
    (run_exit_status exampleAddress (servingEnv mychartManifest)
      (World.init FS.empty)).2.2.2.2 (by decide)⟩

/-- C8 (counterexample): the destination of charts/sub/x.tgz is
charts/sub/x.tgz, not charts/x.tgz. Where charts/sub exists the run stores
the artifact there, and other/y.tgz at charts/other/y.tgz; from an empty
directory it checks charts/sub/x.tgz, fails in every attempt to create
charts/sub/x.tgz.tmp and panics without a GET for the artifact. -/
theorem destination_keeps_directories :
    destination "charts/sub/x.tgz".toList = "charts/sub/x.tgz".toList ∧
      "charts/".toList ++ basename (TrimPrefix "charts/sub/x.tgz".toList "charts/".toList)
        = "charts/x.tgz".toList ∧
      destination "charts/sub/x.tgz".toList
        ≠ "charts/".toList ++ basename (TrimPrefix "charts/sub/x.tgz".toList "charts/".toList) ∧
      (RunLoop exampleAddress (servingEnv []).statOther (servingEnv []).retries 0
        ["charts/sub/x.tgz".toList] (World.init nestedDirs)).1.fs "charts/sub/x.tgz".toList
        = some (.file [1, 2]) ∧
      (RunLoop exampleAddress (servingEnv []).statOther (servingEnv []).retries 0
        ["charts/sub/x.tgz".toList] (World.init nestedDirs)).1.fs "charts/x.tgz".toList
        = none ∧
      (RunLoop exampleAddress (servingEnv []).statOther (servingEnv []).retries 0
        ["other/y.tgz".toList] (World.init nestedDirs)).1.fs "charts/other/y.tgz".toList
        = some (.file [1, 2]) ∧
      (RunLoop exampleAddress (servingEnv []).statOther (servingEnv []).retries 0
        ["other/y.tgz".toList] (World.init nestedDirs)).1.fs "charts/y.tgz".toList
        = none ∧
      (Run exampleAddress missingDirEnv (World.init FS.empty)).2 = .panic ∧
      (Run exampleAddress missingDirEnv (World.init FS.empty)).1.trace
        = [.stdout "Checking for charts...\n".toList, .httpGet "http://h/api/charts".toList,
            .stdout "Download Started\n".toList, .stat "charts".toList,
            .mkdir "charts".toList, .stat "charts/sub/x.tgz".toList]
          ++ List.replicate 10 (.create "charts/sub/x.tgz.tmp".toList) := by
  decide

/-- C8 (witness): the spec's scenario in an empty charts directory: the
destination of charts/mychart-1.0.0.tgz is that path, which is the
basename form, the served body is there after the iteration, and the one
GET is for the base URL, "/" and the path. -/
theorem run_destination_and_source_witness :
    (World.init chartsDirOnly).fs.isNotExist ((servingEnv mychartManifest).statOther 0)
        (destination "charts/mychart-1.0.0.tgz".toList) = true ∧
      destination "charts/mychart-1.0.0.tgz".toList = "charts/mychart-1.0.0.tgz".toList ∧
      DownloadedAt
        (RunLoop exampleAddress (servingEnv mychartManifest).statOther
          (servingEnv mychartManifest).retries 0
          ["charts/mychart-1.0.0.tgz".toList] (World.init chartsDirOnly)).1
        (destination "charts/mychart-1.0.0.tgz".toList) [okAttempt [[1, 2]]] ∧
      destination "charts/mychart-1.0.0.tgz".toList
        = "charts/".toList
          ++ basename (TrimPrefix "charts/mychart-1.0.0.tgz".toList "charts/".toList) ∧
      (RunLoop exampleAddress (servingEnv mychartManifest).statOther
        (servingEnv mychartManifest).retries 0
        ["charts/mychart-1.0.0.tgz".toList] (World.init chartsDirOnly)).1.trace
        = [.stat "charts/mychart-1.0.0.tgz".toList,
            .create "charts/mychart-1.0.0.tgz.tmp".toList,
            .httpGet "http://h/charts/mychart-1.0.0.tgz".toList, .progress 2,
            .write "charts/mychart-1.0.0.tgz.tmp".toList [1, 2], newline,
            .rename "charts/mychart-1.0.0.tgz.tmp".toList "charts/mychart-1.0.0.tgz".toList] :=
  ⟨by decide,
    (run_destination_and_source exampleAddress (servingEnv mychartManifest).statOther
      (servingEnv mychartManifest).retries 0
      "charts/mychart-1.0.0.tgz".toList (World.init chartsDirOnly)).1
      "mychart-1.0.0.tgz".toList rfl,
    (run_destination_and_source exampleAddress (servingEnv mychartManifest).statOther
      (servingEnv mychartManifest).retries 0
      "charts/mychart-1.0.0.tgz".toList (World.init chartsDirOnly)).2.2.2.2.1
      (by decide) (by decide),
    (run_destination_and_source exampleAddress (servingEnv mychartManifest).statOther
      (servingEnv mychartManifest).retries 0
      "charts/mychart-1.0.0.tgz".toList (World.init chartsDirOnly)).2.2.2.2.2
      (by decide) (by decide),
    by decide⟩

/-- C9 (counterexample): the body breaks off after one chunk; the attempt
has printed a progress line and returns the read error without a newline. -/
theorem no_newline_after_failed_copy :
    (DownloadFile "charts/a".toList "http://h/charts/a".toList (brokenAttempt [[1]])
        (World.init chartsDirOnly)).2 = some .readFailed ∧
      (DownloadFile "charts/a".toList "http://h/charts/a".toList (brokenAttempt [[1]])
        (World.init chartsDirOnly)).1.trace
        = [.create "charts/a.tmp".toList, .httpGet "http://h/charts/a".toList, .progress 1,
            .write "charts/a.tmp".toList [1]] ∧
      (DownloadFile "charts/a".toList "http://h/charts/a".toList (brokenAttempt [[1]])
        (World.init chartsDirOnly)).1.trace.count newline = 0 := by
  decide

/-- C9 (witness): a body of two chunks copied in full: one newline, after
the last progress line and before the rename, and the attempt returns nil. -/
theorem downloadFile_newline_only_after_successful_copy_witness :
    (okAttempt [[1], [2, 3]]).createFails = false ∧
      (okAttempt [[1], [2, 3]]).response = some twoChunkBody ∧
      (DownloadFile "charts/a".toList "http://h/charts/a".toList (okAttempt [[1], [2, 3]])
        (World.init chartsDirOnly)).1.trace
        = [.create "charts/a.tmp".toList, .httpGet "http://h/charts/a".toList, .progress 1,
            .write "charts/a.tmp".toList [1], .progress 3, .write "charts/a.tmp".toList [2, 3],
            newline, .rename "charts/a.tmp".toList "charts/a".toList] ∧
      (∃ added copied,
        (DownloadFile "charts/a".toList "http://h/charts/a".toList (okAttempt [[1], [2, 3]])
          (World.init chartsDirOnly)).1.trace = (World.init chartsDirOnly).trace ++ added ∧
        added.count newline = (if twoChunkBody.ending = .eof then 1 else 0) ∧
        newline ∉ copied ∧
        added = [.create (tmpName "charts/a".toList), .httpGet "http://h/charts/a".toList]
          ++ copied
          ++ (if twoChunkBody.ending = .eof then
                [newline, .rename (tmpName "charts/a".toList) "charts/a".toList]
              else []) ∧
        (twoChunkBody.ending = .eof →
          (DownloadFile "charts/a".toList "http://h/charts/a".toList (okAttempt [[1], [2, 3]])
            (World.init chartsDirOnly)).2
            = (if (okAttempt [[1], [2, 3]]).renameFails then some .renameFailed else none)) ∧
        (twoChunkBody.ending ≠ .eof →
          (DownloadFile "charts/a".toList "http://h/charts/a".toList (okAttempt [[1], [2, 3]])
            (World.init chartsDirOnly)).2 = copyError twoChunkBody.ending ∧
          (DownloadFile "charts/a".toList "http://h/charts/a".toList (okAttempt [[1], [2, 3]])
            (World.init chartsDirOnly)).2 ≠ none ∧ added.count newline = 0)) :=
  ⟨rfl, rfl, by decide,
    downloadFile_newline_only_after_successful_copy "charts/a".toList
      "http://h/charts/a".toList (okAttempt [[1], [2, 3]]) (World.init chartsDirOnly)
      twoChunkBody rfl rfl⟩

/-- C4 (failing input): the manifest lists charts/a.tmp and then charts/a.
The first run returns normally, but the download of charts/a uses
charts/a.tmp as its temporary file and renames it away, so the second run
finds charts/a.tmp missing, requests it again and changes the filesystem. -/
theorem second_run_downloads_again :
    firstCollidingRun.2 = .returned ∧
      artifactGets exampleAddress firstCollidingRun.1.trace
        = ["http://h/charts/a.tmp".toList, "http://h/charts/a".toList] ∧
      firstCollidingRun.1.fs "charts/a".toList = some (.file [1, 2]) ∧
      firstCollidingRun.1.fs "charts/a.tmp".toList = none ∧
      secondCollidingRun.2 = .returned ∧
      artifactGets exampleAddress secondCollidingRun.1.trace
        = ["http://h/charts/a.tmp".toList] ∧
      secondCollidingRun.1.fs "charts/a.tmp".toList = some (.file [1, 2]) := by
  decide

/-- C10 (failing input): charts/a.tmp is listed, then charts/a, then
charts/a.tmp again; every attempt succeeds, and charts/a.tmp is requested
and downloaded twice, because the download of charts/a in between took it
away. -/
theorem colliding_destination_downloaded_twice :
    extractURLs collidingTwiceManifest
        = ["charts/a.tmp".toList, "charts/a".toList, "charts/a.tmp".toList] ∧
      (Run exampleAddress (servingEnv collidingTwiceManifest) (World.init FS.empty)).2
        = .returned ∧
      artifactGets exampleAddress
          (Run exampleAddress (servingEnv collidingTwiceManifest) (World.init FS.empty)).1.trace
        = ["http://h/charts/a.tmp".toList, "http://h/charts/a".toList,
            "http://h/charts/a.tmp".toList] := by
  decide

/-- Where `os.Stat` does not answer "does not exist" the run takes the
artifact as present and returns without a GET for it: under a regular file
named charts, for charts/a/b once charts/a is a regular file, and for the
empty path, whose destination "charts/" is the charts directory. -/
theorem stat_answers_that_skip_the_download :
    (Run exampleAddress (servingEnv mychartManifest) (World.init regularFileNamedCharts)).2
        = .returned ∧
      artifactGets exampleAddress
          (Run exampleAddress (servingEnv mychartManifest)
            (World.init regularFileNamedCharts)).1.trace = [] ∧
      (Run exampleAddress (servingEnv fileThenChildManifest) (World.init FS.empty)).2
        = .returned ∧
      artifactGets exampleAddress
          (Run exampleAddress (servingEnv fileThenChildManifest) (World.init FS.empty)).1.trace
        = ["http://h/charts/a".toList] ∧
      (Run exampleAddress emptyPathEnv (World.init FS.empty)).2 = .returned ∧
      artifactGets exampleAddress
          (Run exampleAddress emptyPathEnv (World.init FS.empty)).1.trace = [] := by
  decide

end ChartDownloader
